import Mathlib

/-!
# Verification of the `rust-elf` decode pipeline

A shallow embedding, in Lean 4, of the ELF object-file decoder in
`src/lib.rs` of the `valida-xyz/rust-elf` repository, together with
theorems settling the frozen claims about it.

Conventions of the embedding:

* Machine integers (`u8`, `u16`, `u32`, `u64`) are modelled as `Nat`.
  Every arithmetic operation the source performs on them is widening or
  bit-masking, so no `% 2^w` reduction is ever needed.
* The seekable byte stream (`Read + Seek` in the source) is modelled as a
  list of bytes plus a cursor position.  Two instrumentation counters
  (`reads`, `seeks`) record how many read and seek operations have touched
  the stream, so that "no file access occurs" claims are statable.
  `read_exact` fails (as `io::Read::read_exact` does, with
  `UnexpectedEof`) when fewer bytes remain than requested; `seek` to an
  absolute position always succeeds, as for `io::Cursor`/`fs::File`.
* The source's `ParseError(String)` carries a formatted message; the
  embedding replaces the string by an inductive with one constructor per
  distinct construction site (I/O failure, bad magic, unsupported
  version, string-table offset out of range, invalid UTF-8).
* Rust `String` values (section and symbol names) are modelled by their
  UTF-8 byte lists; `String::from_utf8` validation is performed by an
  executable UTF-8 acceptor.
* A Rust panic (out-of-bounds `Vec` indexing with `[]`) is modelled by a
  dedicated result constructor `RunResult.crash`, distinct from returning
  an error value.

The repository modules `gabi`, `types`, `utils`, `segment` and `section`
are not part of the provided source (`src/lib.rs` only); definitions
taken from them are marked `Modelled from the spec:` and follow the
specification's words (and the standard gABI layouts the specification
references).  Everything else is translated directly from `src/lib.rs`.
-/

namespace Elf

/-! ## Constants (`gabi` module)

Modelled from the spec: the `gabi` module is the "static table of named
format constants (magic bytes, enumerated type/class/endianness/ABI
codes)" described as an external collaborator; the values are the
standard gABI ones referenced by the specification's byte-exact layout
section.  The names below are those `src/lib.rs` uses. -/

def EI_NIDENT : Nat := 16
def EI_CLASS : Nat := 4
def EI_DATA : Nat := 5
def EI_VERSION : Nat := 6
def EI_OSABI : Nat := 7
def EI_ABIVERSION : Nat := 8
def ELFMAGIC : List Nat := [0x7f, 0x45, 0x4c, 0x46]
def EV_CURRENT : Nat := 1
def ELFCLASS32 : Nat := 1
def ELFCLASS64 : Nat := 2
def ELFDATA2LSB : Nat := 1
def ELFDATA2MSB : Nat := 2
def SHT_SYMTAB : Nat := 2
def SHT_NOBITS : Nat := 8
def SHT_DYNSYM : Nat := 11

/-! ## Errors and results -/

/-- The error type of the decoder.  The source's `ParseError` wraps a
formatted message string; each constructor below corresponds to one
distinct construction site of that string (the `From<io::Error>`
conversion, the two explicit `format!` sites in `parse_ident`, and the
string-resolver failures). -/
inductive ParseError where
  /-- An underlying stream read/seek failure, including truncation
  (`io::Error` converted via `From`). -/
  | ioFail : ParseError
  /-- `"Invalid Magic Bytes"`, carrying the actual 4 magic bytes seen. -/
  | badMagic (magic : List Nat) : ParseError
  /-- `"Unsupported ELF Version"`, carrying the actual version byte. -/
  | unsupportedVersion (v : Nat) : ParseError
  /-- String-table offset at or past the end of the table buffer. -/
  | strOutOfRange : ParseError
  /-- The bytes before the terminating null are not valid UTF-8
  (`FromUtf8Error` converted via `From`). -/
  | badUtf8 : ParseError
deriving Repr, DecidableEq

/-- Result of running a source function that can, besides succeeding or
returning a `ParseError`, hit a Rust panic (out-of-bounds `Vec`
indexing).  `crash` models the panic: no value and no error value is
produced. -/
inductive RunResult (α : Type) where
  | ok (a : α) : RunResult α
  | err (e : ParseError) : RunResult α
  | crash : RunResult α
deriving Repr, DecidableEq

/-- Embed an `Except` computation (one that cannot panic) into `RunResult`. -/
def ofExcept {α : Type} : Except ParseError α → RunResult α
  | .ok a => .ok a
  | .error e => .err e

/-! ## The byte stream -/

/-- A seekable byte source: the underlying bytes, the cursor position,
and two instrumentation counters recording how many `read` and `seek`
operations have been performed on the stream. -/
structure ByteStream where
  data : List Nat
  pos : Nat
  reads : Nat
  seeks : Nat
deriving Repr, DecidableEq

/-- `Seek::seek(SeekFrom::Start(n))`: repositions the cursor.  Seeking
past the end succeeds (as it does for `fs::File` and `io::Cursor`); a
subsequent read then fails. -/
def seekTo (s : ByteStream) (n : Nat) : ByteStream :=
  { s with pos := n, seeks := s.seeks + 1 }

/-- `Read::read_exact` into an `n`-byte buffer: returns exactly the next
`n` bytes and advances the cursor, or fails (`UnexpectedEof`) when `n`
is positive and fewer than `n` bytes remain.  `read_exact` with an
empty buffer returns `Ok` unconditionally (its loop body never runs),
even when the cursor has been seeked past the end of the data. -/
def readBytes (s : ByteStream) (n : Nat) : Except ParseError (List Nat × ByteStream) :=
  if n = 0 ∨ s.pos + n ≤ s.data.length then
    .ok ((s.data.drop s.pos).take n,
         { s with pos := s.pos + n, reads := s.reads + 1 })
  else
    .error .ioFail

/-! ## Primitive integer readers (`utils` module)

Modelled from the spec: the Primitive Reader "reads 16/32/64-bit
unsigned integers from the stream in a caller-specified byte order".
Little-endian order is selected by the `ELFDATA2LSB` endianness code;
any other code selects big-endian. -/

/-- Value of a byte list read least-significant byte first. -/
def decodeLE (l : List Nat) : Nat :=
  l.foldr (fun b acc => b + 256 * acc) 0

/-- Value of a byte list in the byte order selected by endianness code
`e`: little-endian for `ELFDATA2LSB`, big-endian (the reverse) otherwise. -/
def decodeEnd (e : Nat) (l : List Nat) : Nat :=
  if e = ELFDATA2LSB then decodeLE l else decodeLE l.reverse

/-- Modelled from the spec: `utils::read_u16`. -/
def readU16 (e : Nat) (s : ByteStream) : Except ParseError (Nat × ByteStream) :=
  match readBytes s 2 with
  | .error er => .error er
  | .ok (bs, s') => .ok (decodeEnd e bs, s')

/-- Modelled from the spec: `utils::read_u32`. -/
def readU32 (e : Nat) (s : ByteStream) : Except ParseError (Nat × ByteStream) :=
  match readBytes s 4 with
  | .error er => .error er
  | .ok (bs, s') => .ok (decodeEnd e bs, s')

/-- Modelled from the spec: `utils::read_u64`. -/
def readU64 (e : Nat) (s : ByteStream) : Except ParseError (Nat × ByteStream) :=
  match readBytes s 8 with
  | .error er => .error er
  | .ok (bs, s') => .ok (decodeEnd e bs, s')

/-! ## Byte-list encoders

Used to *state* layout claims: a value encoded into `w` bytes in a given
byte order.  (These are the claims' test vectors, not part of the
decoder.) -/

/-- `w`-byte little-endian encoding of `v`. -/
def encLE : Nat → Nat → List Nat
  | 0, _ => []
  | w + 1, v => v % 256 :: encLE w (v / 256)

/-- `w`-byte encoding of `v` in the byte order selected by endianness
code `e` (matching `decodeEnd`). -/
def encEnd (e w v : Nat) : List Nat :=
  if e = ELFDATA2LSB then encLE w v else (encLE w v).reverse

/-! ## String resolution (`utils::get_string`)

Modelled from the spec: the String Resolver "scans a byte buffer from a
given offset to the next null byte and decodes it as text", failing on
invalid UTF-8; "offset values outside the buffer's bounds must fail
rather than panic" and "an offset pointing at or past the buffer end
fails". -/

/-- One step of the standard UTF-8 acceptance automaton.  State `0` is
"between characters"; states `1`–`3` expect that many ordinary
continuation bytes; states `4`–`7` are the range-restricted states after
the lead bytes `E0`, `ED`, `F0`, `F4`. -/
def utf8Step (st b : Nat) : Option Nat :=
  match st with
  | 0 =>
    if b < 0x80 then some 0
    else if b < 0xC2 then none
    else if b ≤ 0xDF then some 1
    else if b = 0xE0 then some 4
    else if b = 0xED then some 5
    else if b ≤ 0xEF then some 2
    else if b = 0xF0 then some 6
    else if b ≤ 0xF3 then some 3
    else if b = 0xF4 then some 7
    else none
  | 1 => if 0x80 ≤ b ∧ b ≤ 0xBF then some 0 else none
  | 2 => if 0x80 ≤ b ∧ b ≤ 0xBF then some 1 else none
  | 3 => if 0x80 ≤ b ∧ b ≤ 0xBF then some 2 else none
  | 4 => if 0xA0 ≤ b ∧ b ≤ 0xBF then some 1 else none
  | 5 => if 0x80 ≤ b ∧ b ≤ 0x9F then some 1 else none
  | 6 => if 0x90 ≤ b ∧ b ≤ 0xBF then some 2 else none
  | 7 => if 0x80 ≤ b ∧ b ≤ 0x8F then some 2 else none
  | _ => none

/-- A byte list is valid UTF-8 when the acceptance automaton consumes it
entirely and ends between characters. -/
def utf8Valid (l : List Nat) : Bool :=
  (l.foldl (fun st? b => st?.bind (fun st => utf8Step st b)) (some 0)) = some 0

/-- Modelled from the spec: `utils::get_string`.  Returns the UTF-8 byte
list of the string starting at `offset` in string-table buffer `data`
(the bytes up to the next null byte or the buffer end); fails when
`offset` is at or past the buffer end, or when the bytes are not valid
UTF-8. -/
def get_string (data : List Nat) (offset : Nat) : Except ParseError (List Nat) :=
  if offset < data.length then
    let bytes := (data.drop offset).takeWhile (fun b => b ≠ 0)
    if utf8Valid bytes then .ok bytes else .error .badUtf8
  else
    .error .strOutOfRange

/-! ## Data model (`types`, `segment`, `section` structures)

The field sets are pinned by their construction and use in `src/lib.rs`
and by the specification's data-model section.  The Rust field `class`
is renamed `eclass` (`class` is a Lean keyword). -/

/-- `types::FileHeader` as constructed by `File::parse_ehdr`. -/
structure FileHeader where
  eclass : Nat
  endianness : Nat
  version : Nat
  elftype : Nat
  arch : Nat
  osabi : Nat
  abiversion : Nat
  e_entry : Nat
  e_phoff : Nat
  e_shoff : Nat
  e_flags : Nat
  e_ehsize : Nat
  e_phentsize : Nat
  e_phnum : Nat
  e_shentsize : Nat
  e_shnum : Nat
  e_shstrndx : Nat
deriving Repr, DecidableEq

/-- Modelled from the spec: `segment::ProgramHeader`, "one entry per
loadable/mapped region; fields sized per class", with the standard gABI
field set. -/
structure ProgramHeader where
  p_type : Nat
  p_offset : Nat
  p_vaddr : Nat
  p_paddr : Nat
  p_filesz : Nat
  p_memsz : Nat
  p_flags : Nat
  p_align : Nat
deriving Repr, DecidableEq

/-- Modelled from the spec: `section::SectionHeader` — "per-section
metadata: name-string offset, type code, a link index to an auxiliary
section, file offset, byte size", with the standard gABI field set. -/
structure SectionHeader where
  sh_name : Nat
  sh_type : Nat
  sh_flags : Nat
  sh_addr : Nat
  sh_offset : Nat
  sh_size : Nat
  sh_link : Nat
  sh_info : Nat
  sh_addralign : Nat
  sh_entsize : Nat
deriving Repr, DecidableEq

/-- `Section`: a header plus resolved name and loaded content
(`pub struct Section` in `src/lib.rs`).  The name is the UTF-8 byte list
of the Rust `String`. -/
structure Section where
  name : List Nat
  shdr : SectionHeader
  data : List Nat
deriving Repr, DecidableEq

/-- `types::Symbol` as constructed by `File::parse_symbol`. -/
structure Symbol where
  name : List Nat
  value : Nat
  size : Nat
  shndx : Nat
  symtype : Nat
  bind : Nat
  vis : Nat
deriving Repr, DecidableEq

/-- `pub struct File` in `src/lib.rs`. -/
structure File where
  ehdr : FileHeader
  phdrs : List ProgramHeader
  sections : List Section
deriving Repr, DecidableEq

/-! ## The decode pipeline (`src/lib.rs`) -/

/-- `File::parse_ident`: reads the 16 ident bytes, verifies the magic
number (first `EI_CLASS = 4` bytes) and the ELF version byte, and
returns the ident buffer. -/
def File.parse_ident (s : ByteStream) :
    Except ParseError (List Nat × ByteStream) := do
  let (buf, s) ← readBytes s EI_NIDENT
  let magic := buf.take EI_CLASS
  if magic ≠ ELFMAGIC then
    .error (.badMagic magic)
  else
    let version := buf.getD EI_VERSION 0
    if version ≠ EV_CURRENT then
      .error (.unsupportedVersion version)
    else
      .ok (buf, s)

/-- The class-dependent block of `File::parse_ehdr` (lines 103–115 of
`src/lib.rs`): the entry point and the two table offsets, 4 bytes each
(zero-extended) under `ELFCLASS32` and 8 bytes each otherwise. -/
def readAddrs (endian cls : Nat) (s : ByteStream) :
    Except ParseError (Nat × Nat × Nat × ByteStream) :=
  if cls = ELFCLASS32 then do
    let (entry, s) ← readU32 endian s
    let (phoff, s) ← readU32 endian s
    let (shoff, s) ← readU32 endian s
    .ok (entry, phoff, shoff, s)
  else do
    let (entry, s) ← readU64 endian s
    let (phoff, s) ← readU64 endian s
    let (shoff, s) ← readU64 endian s
    .ok (entry, phoff, shoff, s)

/-- `File::parse_ehdr`: decodes the rest of the file header, with the
address-sized fields 4 bytes wide (zero-extended) under `ELFCLASS32` and
8 bytes wide otherwise. -/
def File.parse_ehdr (ident : List Nat) (s : ByteStream) :
    Except ParseError (FileHeader × ByteStream) := do
  let cls := ident.getD EI_CLASS 0
  let endian := ident.getD EI_DATA 0
  let (elftype, s) ← readU16 endian s
  let (arch, s) ← readU16 endian s
  let (version, s) ← readU32 endian s
  let (entry, phoff, shoff, s) ← readAddrs endian cls s
  let (flags, s) ← readU32 endian s
  let (ehsize, s) ← readU16 endian s
  let (phentsize, s) ← readU16 endian s
  let (phnum, s) ← readU16 endian s
  let (shentsize, s) ← readU16 endian s
  let (shnum, s) ← readU16 endian s
  let (shstrndx, s) ← readU16 endian s
  .ok ({ eclass := cls,
         endianness := endian,
         version := version,
         elftype := elftype,
         arch := arch,
         osabi := ident.getD EI_OSABI 0,
         abiversion := ident.getD EI_ABIVERSION 0,
         e_entry := entry,
         e_phoff := phoff,
         e_shoff := shoff,
         e_flags := flags,
         e_ehsize := ehsize,
         e_phentsize := phentsize,
         e_phnum := phnum,
         e_shentsize := shentsize,
         e_shnum := shnum,
         e_shstrndx := shstrndx }, s)

/-- Modelled from the spec: `segment::ProgramHeader::parse` — one fixed
segment record, "fields sized per class", standard gABI layout (32-bit:
type, offset, vaddr, paddr, filesz, memsz, flags, align, each 4 bytes;
64-bit: type, flags, then the six 8-byte fields). -/
def ProgramHeader.parse (endian cls : Nat) (s : ByteStream) :
    Except ParseError (ProgramHeader × ByteStream) := do
  if cls = ELFCLASS32 then
    let (ptype, s) ← readU32 endian s
    let (poffset, s) ← readU32 endian s
    let (pvaddr, s) ← readU32 endian s
    let (ppaddr, s) ← readU32 endian s
    let (pfilesz, s) ← readU32 endian s
    let (pmemsz, s) ← readU32 endian s
    let (pflags, s) ← readU32 endian s
    let (palign, s) ← readU32 endian s
    .ok ({ p_type := ptype, p_offset := poffset, p_vaddr := pvaddr,
           p_paddr := ppaddr, p_filesz := pfilesz, p_memsz := pmemsz,
           p_flags := pflags, p_align := palign }, s)
  else
    let (ptype, s) ← readU32 endian s
    let (pflags, s) ← readU32 endian s
    let (poffset, s) ← readU64 endian s
    let (pvaddr, s) ← readU64 endian s
    let (ppaddr, s) ← readU64 endian s
    let (pfilesz, s) ← readU64 endian s
    let (pmemsz, s) ← readU64 endian s
    let (palign, s) ← readU64 endian s
    .ok ({ p_type := ptype, p_offset := poffset, p_vaddr := pvaddr,
           p_paddr := ppaddr, p_filesz := pfilesz, p_memsz := pmemsz,
           p_flags := pflags, p_align := palign }, s)

/-- Modelled from the spec: `section::SectionHeader::parse` — one fixed
section record, standard gABI layout (name and type 4 bytes; flags,
addr, offset, size class-sized; link and info 4 bytes; addralign and
entsize class-sized). -/
def SectionHeader.parse (endian cls : Nat) (s : ByteStream) :
    Except ParseError (SectionHeader × ByteStream) := do
  if cls = ELFCLASS32 then
    let (nm, s) ← readU32 endian s
    let (typ, s) ← readU32 endian s
    let (flags, s) ← readU32 endian s
    let (addr, s) ← readU32 endian s
    let (off, s) ← readU32 endian s
    let (size, s) ← readU32 endian s
    let (link, s) ← readU32 endian s
    let (info, s) ← readU32 endian s
    let (addralign, s) ← readU32 endian s
    let (entsize, s) ← readU32 endian s
    .ok ({ sh_name := nm, sh_type := typ, sh_flags := flags,
           sh_addr := addr, sh_offset := off, sh_size := size,
           sh_link := link, sh_info := info, sh_addralign := addralign,
           sh_entsize := entsize }, s)
  else
    let (nm, s) ← readU32 endian s
    let (typ, s) ← readU32 endian s
    let (flags, s) ← readU64 endian s
    let (addr, s) ← readU64 endian s
    let (off, s) ← readU64 endian s
    let (size, s) ← readU64 endian s
    let (link, s) ← readU32 endian s
    let (info, s) ← readU32 endian s
    let (addralign, s) ← readU64 endian s
    let (entsize, s) ← readU64 endian s
    .ok ({ sh_name := nm, sh_type := typ, sh_flags := flags,
           sh_addr := addr, sh_offset := off, sh_size := size,
           sh_link := link, sh_info := info, sh_addralign := addralign,
           sh_entsize := entsize }, s)

/-- The `for _ in 0..ehdr.e_phnum` loop of `File::open_stream`: decode
`n` consecutive program headers. -/
def parsePhdrs (endian cls : Nat) : Nat → ByteStream →
    Except ParseError (List ProgramHeader × ByteStream)
  | 0, s => .ok ([], s)
  | n + 1, s => do
    let (phdr, s) ← ProgramHeader.parse endian cls s
    let (rest, s) ← parsePhdrs endian cls n s
    .ok (phdr :: rest, s)

/-- The `for _ in 0..ehdr.e_shnum` loop of `File::open_stream`: decode
`n` consecutive section headers, each wrapped in a `Section` with empty
name and empty data. -/
def parseShdrs (endian cls : Nat) : Nat → ByteStream →
    Except ParseError (List Section × ByteStream)
  | 0, s => .ok ([], s)
  | n + 1, s => do
    let (shdr, s) ← SectionHeader.parse endian cls s
    let (rest, s) ← parseShdrs endian cls n s
    .ok ({ name := [], shdr := shdr, data := [] } :: rest, s)

/-- The body of the section-data loop of `File::open_stream` (lines
175–183 of `src/lib.rs`) for one section: a `SHT_NOBITS` section is
skipped (`continue`); any other section has the stream seeked to its
`sh_offset` and exactly `sh_size` bytes read into its data. -/
def loadOne (s : ByteStream) (sec : Section) :
    Except ParseError (Section × ByteStream) :=
  if sec.shdr.sh_type = SHT_NOBITS then
    .ok (sec, s)
  else
    match readBytes (seekTo s sec.shdr.sh_offset) sec.shdr.sh_size with
    | .error e => .error e
    | .ok (bs, s') => .ok ({ sec with data := bs }, s')

/-- The section-data loop of `File::open_stream`, over all sections in
order, threading the stream. -/
def loadAll (s : ByteStream) : List Section →
    Except ParseError (List Section × ByteStream)
  | [] => .ok ([], s)
  | sec :: rest => do
    let (sec', s') ← loadOne s sec
    let (rest', s'') ← loadAll s' rest
    .ok (sec' :: rest', s'')

/-- The inner body of the name-resolution loop of `File::open_stream`:
resolve each section's name in the (already fetched) name-table bytes. -/
def resolveNamesGo (shstr : List Nat) : List Section →
    Except ParseError (List Section)
  | [] => .ok []
  | sec :: rest => do
    let nm ← get_string shstr sec.shdr.sh_name
    let rest' ← resolveNamesGo shstr rest
    .ok ({ sec with name := nm } :: rest')

/-- The name-resolution loop of `File::open_stream` (lines 186–189 of
`src/lib.rs`).  Each iteration evaluates
`sections[ehdr.e_shstrndx as usize].data` with Rust's panicking `[]`
indexing: with a nonempty section list and `e_shstrndx` out of range
the very first iteration panics (`crash`); with an empty section list
the loop body never runs. -/
def resolveNames (shstrndx : Nat) (sections : List Section) :
    RunResult (List Section) :=
  match sections with
  | [] => .ok []
  | _ :: _ =>
    if h : shstrndx < sections.length then
      ofExcept (resolveNamesGo (sections.get ⟨shstrndx, h⟩).data sections)
    else
      .crash

/-- `File::open_stream`: the full pipeline — ident validation, header
decode, program-header table, section-header table, section content
loading, section-name resolution. -/
def File.open_stream (s : ByteStream) : RunResult File :=
  match File.parse_ident s with
  | .error e => .err e
  | .ok (ident, s) =>
    match File.parse_ehdr ident s with
    | .error e => .err e
    | .ok (ehdr, s) =>
      match parsePhdrs ehdr.endianness ehdr.eclass ehdr.e_phnum
          (seekTo s ehdr.e_phoff) with
      | .error e => .err e
      | .ok (phdrs, s) =>
        match parseShdrs ehdr.endianness ehdr.eclass ehdr.e_shnum
            (seekTo s ehdr.e_shoff) with
        | .error e => .err e
        | .ok (sections, s) =>
          match loadAll s sections with
          | .error e => .err e
          | .ok (sections, _) =>
            match resolveNames ehdr.e_shstrndx sections with
            | .err e => .err e
            | .crash => .crash
            | .ok sections =>
              .ok { ehdr := ehdr, phdrs := phdrs, sections := sections }

/-- The class-dependent field block of `File::parse_symbol` (lines
218–232 of `src/lib.rs`).  Field order differs by class: 32-bit reads
name-offset, value, size, info, other, section-index; 64-bit reads
name-offset, info, other, section-index, value, size.  `info` and
`other` are read as single bytes. -/
def readSymFields (ehdr : FileHeader) (s : ByteStream) :
    Except ParseError (Nat × Nat × Nat × Nat × Nat × Nat × ByteStream) :=
  if ehdr.eclass = ELFCLASS32 then do
    let (name, s) ← readU32 ehdr.endianness s
    let (value, s) ← readU32 ehdr.endianness s
    let (size, s) ← readU32 ehdr.endianness s
    let (info, s) ← readBytes s 1
    let (other, s) ← readBytes s 1
    let (shndx, s) ← readU16 ehdr.endianness s
    .ok (name, value, size, info.getD 0 0, other.getD 0 0, shndx, s)
  else do
    let (name, s) ← readU32 ehdr.endianness s
    let (info, s) ← readBytes s 1
    let (other, s) ← readBytes s 1
    let (shndx, s) ← readU16 ehdr.endianness s
    let (value, s) ← readU64 ehdr.endianness s
    let (size, s) ← readU64 ehdr.endianness s
    .ok (name, value, size, info.getD 0 0, other.getD 0 0, shndx, s)

/-- `File::parse_symbol`: decode one symbol record from the section
cursor via `readSymFields`, then resolve the name in the linked string
table `link`. -/
def File.parse_symbol (ehdr : FileHeader) (link : List Nat) (s : ByteStream) :
    Except ParseError (Symbol × ByteStream) := do
  let (name, value, size, info, other, shndx, s) ← readSymFields ehdr s
  let nm ← get_string link name
  .ok ({ name := nm,
         value := value,
         size := size,
         shndx := shndx,
         symtype := info &&& 0xf,
         bind := info >>> 4,
         vis := other &&& 0x3 }, s)

/-- The `while (io_section.position() as usize) < section.data.len()`
loop of `File::get_symbols`, decoding symbol records until the cursor
reaches the end of the section content.  The `fuel` parameter only bounds
the recursion: every successful `parse_symbol` advances the cursor by at
least 16 bytes, so `data.length + 1` fuel is never exhausted when called
from `get_symbols`. -/
def symLoopGo (ehdr : FileHeader) (link : List Nat) :
    Nat → ByteStream → Except ParseError (List Symbol)
  | 0, _ => .error .ioFail
  | fuel + 1, s =>
    if s.pos < s.data.length then
      match File.parse_symbol ehdr link s with
      | .error e => .error e
      | .ok (sym, s') =>
        match symLoopGo ehdr link fuel s' with
        | .error e => .error e
        | .ok syms => .ok (sym :: syms)
    else
      .ok []

/-- `File::get_symbols`: for a symbol-table or dynamic-symbol-table
section, fetch the linked string table (`self.sections[sh_link]`, a
panicking `[]` index) and decode symbol records from the section content
until it is consumed; for any other section type, return the empty
list. -/
def File.get_symbols (f : File) (sec : Section) : RunResult (List Symbol) :=
  if sec.shdr.sh_type = SHT_SYMTAB ∨ sec.shdr.sh_type = SHT_DYNSYM then
    if h : sec.shdr.sh_link < f.sections.length then
      ofExcept (symLoopGo f.ehdr (f.sections.get ⟨sec.shdr.sh_link, h⟩).data
        (sec.data.length + 1) { data := sec.data, pos := 0, reads := 0, seeks := 0 })
    else
      .crash
  else
    .ok []

/-- `File::get_section`: first section whose name equals the given name
(`Iterator::find`), or `none`. -/
def File.get_section (f : File) (nm : List Nat) : Option Section :=
  f.sections.find? (fun sec => sec.name == nm)

/-! ## Derived sizes and claim-statement encoders

These definitions state the layout claims: the record encoders build the
byte images the claims quantify over (physical field order and widths as
the claims give them); the size functions are the byte counts the
decoders consume. -/

/-- Number of bytes `File.parse_ehdr` consumes after the ident: 36 under
`ELFCLASS32`, 48 otherwise. -/
def ehdrSize (cls : Nat) : Nat :=
  if cls = ELFCLASS32 then 36 else 48

/-- Size of one symbol record as consumed by `File.parse_symbol`:
16 bytes under `ELFCLASS32`, 24 otherwise. -/
def recSize (ehdr : FileHeader) : Nat :=
  if ehdr.eclass = ELFCLASS32 then 16 else 24

/-- The name-offset field of the `k`-th symbol record inside symbol-table
content `data`: the first 4 bytes of the record, in the header's byte
order. -/
def symNameOff (ehdr : FileHeader) (data : List Nat) (k : Nat) : Nat :=
  decodeEnd ehdr.endianness ((data.drop (k * recSize ehdr)).take 4)

/-- A file header image in the 32-bit physical field order and widths of
the claim: object type (2), architecture (2), version (4), entry point
(4), segment-table offset (4), section-table offset (4), flags (4), then
the six 2-byte fields. -/
def encodeEhdr32 (e typ arch ver entry phoff shoff flags ehsize phentsize
    phnum shentsize shnum shstrndx : Nat) : List Nat :=
  encEnd e 2 typ ++ encEnd e 2 arch ++ encEnd e 4 ver ++ encEnd e 4 entry ++
  encEnd e 4 phoff ++ encEnd e 4 shoff ++ encEnd e 4 flags ++
  encEnd e 2 ehsize ++ encEnd e 2 phentsize ++ encEnd e 2 phnum ++
  encEnd e 2 shentsize ++ encEnd e 2 shnum ++ encEnd e 2 shstrndx

/-- A file header image in the 64-bit physical field order and widths of
the claim: as `encodeEhdr32` but with 8-byte entry point and table
offsets. -/
def encodeEhdr64 (e typ arch ver entry phoff shoff flags ehsize phentsize
    phnum shentsize shnum shstrndx : Nat) : List Nat :=
  encEnd e 2 typ ++ encEnd e 2 arch ++ encEnd e 4 ver ++ encEnd e 8 entry ++
  encEnd e 8 phoff ++ encEnd e 8 shoff ++ encEnd e 4 flags ++
  encEnd e 2 ehsize ++ encEnd e 2 phentsize ++ encEnd e 2 phnum ++
  encEnd e 2 shentsize ++ encEnd e 2 shnum ++ encEnd e 2 shstrndx

/-- A symbol record in the 32-bit physical field order of the claim:
name-offset (4), value (4), size (4), info (1), other (1),
section-index (2). -/
def encodeSym32 (e nameo value size info other shndx : Nat) : List Nat :=
  encEnd e 4 nameo ++ encEnd e 4 value ++ encEnd e 4 size ++
  [info] ++ [other] ++ encEnd e 2 shndx

/-- A symbol record in the 64-bit physical field order of the claim:
name-offset (4), info (1), other (1), section-index (2), value (8),
size (8). -/
def encodeSym64 (e nameo value size info other shndx : Nat) : List Nat :=
  encEnd e 4 nameo ++ [info] ++ [other] ++ encEnd e 2 shndx ++
  encEnd e 8 value ++ encEnd e 8 size

/-! ## Concrete inputs for counterexamples and witnesses -/

/-- A complete little-endian 32-bit input stream whose header declares
one section (`e_shnum = 1`) but a name-table index of 1
(`e_shstrndx = 1`), out of range of the decoded section sequence.  The
single section is `SHT_NOBITS` at offset 52 in the image. -/
def c1data : List Nat :=
  [0x7f, 0x45, 0x4c, 0x46, 1, 1, 1, 0, 0, 0, 0, 0, 0, 0, 0, 0] ++
  [2, 0] ++ [3, 0] ++ [1, 0, 0, 0] ++
  [0, 0, 0, 0] ++ [0, 0, 0, 0] ++ [52, 0, 0, 0] ++
  [0, 0, 0, 0] ++
  [52, 0] ++ [32, 0] ++ [0, 0] ++ [40, 0] ++ [1, 0] ++ [1, 0] ++
  [0, 0, 0, 0] ++ [8, 0, 0, 0] ++ [0, 0, 0, 0] ++ [0, 0, 0, 0] ++
  [0, 0, 0, 0] ++ [0, 0, 0, 0] ++ [0, 0, 0, 0] ++ [0, 0, 0, 0] ++
  [0, 0, 0, 0] ++ [0, 0, 0, 0]

/-- A 32-bit little-endian file header value used by the concrete files
below. -/
def hdr32LE : FileHeader :=
  { eclass := ELFCLASS32, endianness := ELFDATA2LSB, version := 1,
    elftype := 2, arch := 3, osabi := 0, abiversion := 0, e_entry := 0,
    e_phoff := 0, e_shoff := 0, e_flags := 0, e_ehsize := 52,
    e_phentsize := 32, e_phnum := 0, e_shentsize := 40, e_shnum := 1,
    e_shstrndx := 0 }

/-- The 64-bit variant of `hdr32LE` (same endianness). -/
def hdr64LE : FileHeader :=
  { hdr32LE with eclass := ELFCLASS64 }

/-- A symbol-table section whose `sh_link` (5) is out of range of the
owning file's one-element section array. -/
def c2sec : Section :=
  { name := [],
    shdr := { sh_name := 0, sh_type := SHT_SYMTAB, sh_flags := 0,
              sh_addr := 0, sh_offset := 0, sh_size := 0, sh_link := 5,
              sh_info := 0, sh_addralign := 0, sh_entsize := 0 },
    data := [] }

/-- A file with exactly one section, `c2sec`. -/
def c2file : File :=
  { ehdr := hdr32LE, phdrs := [], sections := [c2sec] }

/-- A string-table section whose content is the single null byte: only
offset 0 (the empty string) is resolvable. -/
def c6str : Section :=
  { name := [], data := [0],
    shdr := { sh_name := 0, sh_type := 3, sh_flags := 0, sh_addr := 0,
              sh_offset := 0, sh_size := 1, sh_link := 0, sh_info := 0,
              sh_addralign := 0, sh_entsize := 0 } }

/-- A symbol-table section (linked to section 0, the string table) whose
content is exactly one 16-byte record — an exact multiple of the record
size — but whose record's name offset (5) is out of range of the
one-byte string table. -/
def c6secBad : Section :=
  { name := [],
    data := [5, 0, 0, 0, 0, 0, 0, 0, 0, 0, 0, 0, 0, 0, 0, 0],
    shdr := { sh_name := 0, sh_type := SHT_SYMTAB, sh_flags := 0,
              sh_addr := 0, sh_offset := 0, sh_size := 16, sh_link := 0,
              sh_info := 0, sh_addralign := 0, sh_entsize := 0 } }

/-- Like `c6secBad` but with one well-formed record: name offset 0,
value 7, size 9, info `0x21`, other 2, section index 4. -/
def c6secOk : Section :=
  { c6secBad with
    data := [0, 0, 0, 0, 7, 0, 0, 0, 9, 0, 0, 0, 0x21, 2, 4, 0] }

/-- Like `c6secBad` but with 17 content bytes — not a multiple of the
record size. -/
def c6secRagged : Section :=
  { c6secBad with
    data := [0, 0, 0, 0, 7, 0, 0, 0, 9, 0, 0, 0, 0x21, 2, 4, 0, 0] }

/-- A file holding the one-byte string table and `c6secBad`. -/
def c6file : File :=
  { ehdr := hdr32LE, phdrs := [], sections := [c6str, c6secBad] }

/-- A file holding the one-byte string table and `c6secOk`. -/
def c6fileOk : File :=
  { ehdr := hdr32LE, phdrs := [], sections := [c6str, c6secOk] }

/-- A section of a type that is neither `SHT_SYMTAB` nor `SHT_DYNSYM`,
with an out-of-range link and nonempty content. -/
def c10sec : Section :=
  { name := [], data := [1, 2, 3],
    shdr := { sh_name := 0, sh_type := 1, sh_flags := 0, sh_addr := 0,
              sh_offset := 0, sh_size := 3, sh_link := 99, sh_info := 0,
              sh_addralign := 0, sh_entsize := 0 } }

/-- Two named sections for the `get_section` witness: names `"a"` and
`"b"`, the second preceded by a non-matching first. -/
def c9secA : Section :=
  { name := [97], shdr := c10sec.shdr, data := [] }

/-- Second section, named `"b"`. -/
def c9secB : Section :=
  { name := [98], shdr := c10sec.shdr, data := [] }

/-- A file with sections named `"a"` then `"b"`. -/
def c9file : File :=
  { ehdr := hdr32LE, phdrs := [], sections := [c9secA, c9secB] }

/-- A `SHT_NOBITS` section with nonzero declared offset and size, for
the loading witness. -/
def c4secNobits : Section :=
  { name := [], data := [],
    shdr := { sh_name := 0, sh_type := SHT_NOBITS, sh_flags := 0,
              sh_addr := 0, sh_offset := 7, sh_size := 5, sh_link := 0,
              sh_info := 0, sh_addralign := 0, sh_entsize := 0 } }

/-- An ordinary (non-`SHT_NOBITS`) section declaring 2 bytes at offset 1. -/
def c4secLoad : Section :=
  { name := [], data := [],
    shdr := { sh_name := 0, sh_type := 1, sh_flags := 0,
              sh_addr := 0, sh_offset := 1, sh_size := 2, sh_link := 0,
              sh_info := 0, sh_addralign := 0, sh_entsize := 0 } }

/-- An ordinary (non-`SHT_NOBITS`) section declaring 0 bytes at offset
7, past the end of every witness stream: `read_exact` into an empty
buffer succeeds even there. -/
def c4secZero : Section :=
  { name := [], data := [],
    shdr := { sh_name := 0, sh_type := 1, sh_flags := 0,
              sh_addr := 0, sh_offset := 7, sh_size := 0, sh_link := 0,
              sh_info := 0, sh_addralign := 0, sh_entsize := 0 } }

/-! ## Encoder lemmas -/

theorem length_encLE (w v : Nat) : (encLE w v).length = w := by
  induction w generalizing v with
  | zero => rfl
  | succ w ih => simp [encLE, ih]

theorem length_encEnd (e w v : Nat) : (encEnd e w v).length = w := by
  unfold encEnd
  split <;> simp [length_encLE]

theorem decodeLE_encLE (w v : Nat) : decodeLE (encLE w v) = v % 256 ^ w := by
  induction w generalizing v with
  | zero => simp [encLE, decodeLE, Nat.mod_one]
  | succ w ih =>
    have h1 : decodeLE (encLE (w + 1) v) = v % 256 + 256 * ((v / 256) % 256 ^ w) := by
      simp [encLE, decodeLE] at ih ⊢
      rw [ih]
    rw [h1]
    have h2 : v = 256 * (v / 256) + v % 256 := (Nat.div_add_mod v 256).symm
    have h3 : v / 256 = 256 ^ w * (v / 256 / 256 ^ w) + (v / 256) % 256 ^ w :=
      (Nat.div_add_mod _ _).symm
    have hlt : v % 256 + 256 * ((v / 256) % 256 ^ w) < 256 ^ (w + 1) := by
      have ha : v % 256 < 256 := Nat.mod_lt _ (by norm_num)
      have hb : (v / 256) % 256 ^ w < 256 ^ w :=
        Nat.mod_lt _ (Nat.pos_pow_of_pos w (by norm_num))
      have : v % 256 + 256 * ((v / 256) % 256 ^ w) + 1 ≤ 256 * 256 ^ w := by
        nlinarith
      calc v % 256 + 256 * ((v / 256) % 256 ^ w) < 256 * 256 ^ w := by omega
        _ = 256 ^ (w + 1) := by ring
    have hdvd : v = (v % 256 + 256 * ((v / 256) % 256 ^ w)) +
        256 ^ (w + 1) * (v / 256 / 256 ^ w) := by
      calc v = 256 * (v / 256) + v % 256 := h2
        _ = 256 * (256 ^ w * (v / 256 / 256 ^ w) + (v / 256) % 256 ^ w) + v % 256 := by
            rw [← h3]
        _ = (v % 256 + 256 * ((v / 256) % 256 ^ w)) +
            256 ^ (w + 1) * (v / 256 / 256 ^ w) := by ring
    calc v % 256 + 256 * ((v / 256) % 256 ^ w)
        = (v % 256 + 256 * ((v / 256) % 256 ^ w)) % 256 ^ (w + 1) :=
          (Nat.mod_eq_of_lt hlt).symm
      _ = ((v % 256 + 256 * ((v / 256) % 256 ^ w)) + 256 ^ (w + 1) * (v / 256 / 256 ^ w)) % 256 ^ (w + 1) := by
          rw [Nat.add_mul_mod_self_left]
      _ = v % 256 ^ (w + 1) := by rw [← hdvd]

theorem decodeEnd_encEnd (e w v : Nat) : decodeEnd e (encEnd e w v) = v % 256 ^ w := by
  unfold decodeEnd encEnd
  split <;> simp [decodeLE_encLE]

theorem decodeEnd_encEnd_of_lt (e w v : Nat) (hv : v < 256 ^ w) :
    decodeEnd e (encEnd e w v) = v := by
  rw [decodeEnd_encEnd, Nat.mod_eq_of_lt hv]


/-! ## Stream lemmas -/

theorem bind_ok_inv {α β : Type} {x : Except ParseError α}
    {f : α → Except ParseError β} {b : β} (h : x >>= f = .ok b) :
    ∃ a, x = .ok a ∧ f a = .ok b := by
  cases x with
  | error e => simp [Bind.bind, Except.bind] at h
  | ok a => exact ⟨a, rfl, by simpa [Bind.bind, Except.bind] using h⟩

theorem readBytes_ok_shape {s : ByteStream} {n : Nat} {bs : List Nat}
    {s' : ByteStream} (h : readBytes s n = .ok (bs, s')) :
    s'.data = s.data ∧ s'.pos = s.pos + n ∧
    (0 < n → s.pos + n ≤ s.data.length) ∧
    bs = (s.data.drop s.pos).take n ∧ s'.reads = s.reads + 1 ∧
    s'.seeks = s.seeks := by
  unfold readBytes at h
  split at h
  · rename_i hc
    injection h with h
    injection h with h1 h2
    subst h2
    refine ⟨rfl, rfl, ?_, h1.symm, rfl, rfl⟩
    intro hn
    rcases hc with h0 | hle
    · omega
    · exact hle
  · exact absurd h (by simp)

theorem readU16_ok_shape {e : Nat} {s : ByteStream} {v : Nat} {s' : ByteStream}
    (h : readU16 e s = .ok (v, s')) :
    s'.data = s.data ∧ s'.pos = s.pos + 2 ∧ s.pos + 2 ≤ s.data.length := by
  unfold readU16 at h
  split at h
  · exact absurd h (by simp)
  · rename_i bs s'' hr
    injection h with h
    injection h with h1 h2
    subst h2
    obtain ⟨hd, hp, hle, _, _, _⟩ := readBytes_ok_shape hr
    exact ⟨hd, hp, hle (by norm_num)⟩

theorem readU32_ok_shape {e : Nat} {s : ByteStream} {v : Nat} {s' : ByteStream}
    (h : readU32 e s = .ok (v, s')) :
    s'.data = s.data ∧ s'.pos = s.pos + 4 ∧ s.pos + 4 ≤ s.data.length := by
  unfold readU32 at h
  split at h
  · exact absurd h (by simp)
  · rename_i bs s'' hr
    injection h with h
    injection h with h1 h2
    subst h2
    obtain ⟨hd, hp, hle, _, _, _⟩ := readBytes_ok_shape hr
    exact ⟨hd, hp, hle (by norm_num)⟩

theorem readU64_ok_shape {e : Nat} {s : ByteStream} {v : Nat} {s' : ByteStream}
    (h : readU64 e s = .ok (v, s')) :
    s'.data = s.data ∧ s'.pos = s.pos + 8 ∧ s.pos + 8 ≤ s.data.length := by
  unfold readU64 at h
  split at h
  · exact absurd h (by simp)
  · rename_i bs s'' hr
    injection h with h
    injection h with h1 h2
    subst h2
    obtain ⟨hd, hp, hle, _, _, _⟩ := readBytes_ok_shape hr
    exact ⟨hd, hp, hle (by norm_num)⟩

theorem readBytes_chunk (d : List Nat) (p r k n : Nat) (chunk rest : List Nat)
    (hd : d.drop p = chunk ++ rest) (hc : chunk.length = n) (hn : 0 < n) :
    readBytes ⟨d, p, r, k⟩ n = .ok (chunk, ⟨d, p + n, r + 1, k⟩) ∧
    d.drop (p + n) = rest := by
  have hlen : d.length - p = n + rest.length := by
    have := congrArg List.length hd
    simpa [List.length_drop, hc] using this
  have hle : p + n ≤ d.length := by
    rcases le_or_lt p d.length with hp | hp
    · omega
    · exfalso
      have : d.drop p = [] := List.drop_eq_nil_of_le (Nat.le_of_lt hp)
      rw [this] at hd
      have := congrArg List.length hd
      simp [hc] at this
      omega
  constructor
  · have ht : (d.drop p).take n = chunk := by rw [hd]; exact List.take_left' hc
    unfold readBytes
    rw [if_pos (Or.inr hle), ht]
  · have h1 : d.drop (p + n) = (d.drop p).drop n := by
      rw [List.drop_drop]
    rw [h1, hd]
    exact List.drop_left' hc

theorem readU16_chunk (e p r k : Nat) (d rest : List Nat) (v : Nat)
    (hd : d.drop p = encEnd e 2 v ++ rest) (hv : v < 256 ^ 2) :
    readU16 e ⟨d, p, r, k⟩ = .ok (v, ⟨d, p + 2, r + 1, k⟩) ∧
    d.drop (p + 2) = rest := by
  obtain ⟨h1, h2⟩ := readBytes_chunk d p r k 2 _ rest hd (length_encEnd e 2 v) (by norm_num)
  refine ⟨?_, h2⟩
  simp [readU16, h1, decodeEnd_encEnd_of_lt e 2 v hv]

theorem readU32_chunk (e p r k : Nat) (d rest : List Nat) (v : Nat)
    (hd : d.drop p = encEnd e 4 v ++ rest) (hv : v < 256 ^ 4) :
    readU32 e ⟨d, p, r, k⟩ = .ok (v, ⟨d, p + 4, r + 1, k⟩) ∧
    d.drop (p + 4) = rest := by
  obtain ⟨h1, h2⟩ := readBytes_chunk d p r k 4 _ rest hd (length_encEnd e 4 v) (by norm_num)
  refine ⟨?_, h2⟩
  simp [readU32, h1, decodeEnd_encEnd_of_lt e 4 v hv]

theorem readU64_chunk (e p r k : Nat) (d rest : List Nat) (v : Nat)
    (hd : d.drop p = encEnd e 8 v ++ rest) (hv : v < 256 ^ 8) :
    readU64 e ⟨d, p, r, k⟩ = .ok (v, ⟨d, p + 8, r + 1, k⟩) ∧
    d.drop (p + 8) = rest := by
  obtain ⟨h1, h2⟩ := readBytes_chunk d p r k 8 _ rest hd (length_encEnd e 8 v) (by norm_num)
  refine ⟨?_, h2⟩
  simp [readU64, h1, decodeEnd_encEnd_of_lt e 8 v hv]

theorem readByte1_chunk (p r k : Nat) (d rest : List Nat) (b : Nat)
    (hd : d.drop p = b :: rest) :
    readBytes ⟨d, p, r, k⟩ 1 = .ok ([b], ⟨d, p + 1, r + 1, k⟩) ∧
    d.drop (p + 1) = rest := by
  exact readBytes_chunk d p r k 1 [b] rest (by simpa using hd) rfl (by norm_num)

/-! ## Claim theorems -/

/-- **C1** (code bug, divergence witness).  The claim says that an input
stream reaching the name-resolution phase with `e_shstrndx` out of range
of the decoded section sequence makes `File::open_stream` fail with a
decode error rather than panic.  On this complete, otherwise well-formed
input stream — valid ident, one decoded section, `e_shstrndx = 1` — the
source instead panics: `sections[ehdr.e_shstrndx as usize]` at line 187
of `src/lib.rs` is an out-of-bounds `Vec` index.  `open_stream` crashes
rather than returning an error value. -/
theorem c1_open_stream_shstrndx_oob_crashes :
    File.open_stream { data := c1data, pos := 0, reads := 0, seeks := 0 } =
      .crash := by
  rfl

/-- **C2** (code bug, divergence witness).  The claim says `get_symbols`
on a symbol-table section whose `sh_link` is out of range returns an
error value rather than panicking.  On this file with a single section
whose `sh_link` is 5, the source instead panics:
`self.sections[section.shdr.sh_link as usize]` at line 201 of
`src/lib.rs` is an out-of-bounds `Vec` index. -/
theorem c2_get_symbols_bad_link_crashes :
    File.get_symbols c2file c2sec = .crash := by
  rfl

/-- **C10**: for every file and every section whose type is neither
`SHT_SYMTAB` nor `SHT_DYNSYM`, `get_symbols` returns `Ok` with the empty
symbol list — for *every* such file and section, including ones with an
out-of-range `sh_link` and arbitrary content, so no content read and no
string-table lookup is performed. -/
theorem c10_get_symbols_other_type_empty :
    ∀ (f : File) (sec : Section),
      sec.shdr.sh_type ≠ SHT_SYMTAB → sec.shdr.sh_type ≠ SHT_DYNSYM →
      File.get_symbols f sec = .ok [] := by
  intro f sec h1 h2
  simp [File.get_symbols, h1, h2]

/-- Witness for **C10**: a section of type 1 with out-of-range link and
nonempty content still yields `Ok([])`. -/
theorem c10_witness :
    File.get_symbols c2file c10sec = .ok [] :=
  c10_get_symbols_other_type_empty c2file c10sec (by decide) (by decide)

/-- **C7**: ident validation on any 16-byte prologue whose first 4 bytes
differ from the magic constant fails with `BadMagic` carrying the actual
bytes; in particular (second conjunct) it fails for every prologue whose
magic differs from the constant in exactly one byte position. -/
theorem c7_bad_magic :
    (∀ (buf rest : List Nat) (r k : Nat), buf.length = EI_NIDENT →
      buf.take EI_CLASS ≠ ELFMAGIC →
      File.parse_ident { data := buf ++ rest, pos := 0, reads := r, seeks := k } =
        .error (.badMagic (buf.take EI_CLASS))) ∧
    (∀ (i b : Nat) (tail : List Nat) (r k : Nat), i < 4 → b ≠ ELFMAGIC.getD i 0 →
      tail.length = 12 →
      File.parse_ident { data := ELFMAGIC.set i b ++ tail, pos := 0, reads := r, seeks := k } =
        .error (.badMagic (ELFMAGIC.set i b))) := by
  have hmain : ∀ (buf rest : List Nat) (r k : Nat), buf.length = EI_NIDENT →
      buf.take EI_CLASS ≠ ELFMAGIC →
      File.parse_ident { data := buf ++ rest, pos := 0, reads := r, seeks := k } =
        .error (.badMagic (buf.take EI_CLASS)) := by
    intro buf rest r k hlen hne
    have h0 : (buf ++ rest).drop 0 = buf ++ rest := by simp
    obtain ⟨h1, -⟩ := readBytes_chunk _ 0 r k EI_NIDENT _ _ h0 hlen
      (by norm_num [EI_NIDENT])
    simp only [File.parse_ident, h1, Bind.bind, Except.bind]
    rw [if_pos hne]
  refine ⟨hmain, ?_⟩
  intro i b tail r k hi hb htail
  have hlen : (ELFMAGIC.set i b).length = EI_CLASS := by
    simp [ELFMAGIC, EI_CLASS]
  have htake : ((ELFMAGIC.set i b) ++ tail).take EI_CLASS = ELFMAGIC.set i b :=
    List.take_left' hlen
  have hne : ELFMAGIC.set i b ≠ ELFMAGIC := by
    intro hcontra
    apply hb
    have hgd : (ELFMAGIC.set i b).getD i 0 = b := by
      have hil : i < ELFMAGIC.length := by simpa [ELFMAGIC] using hi
      simp [List.getD, List.getElem?_set_self hil]
    rw [← hcontra, hgd]
  have hr := hmain (ELFMAGIC.set i b ++ tail) [] r k
    (by simp [EI_NIDENT, List.length_set, ELFMAGIC, htail]) (by rw [htake]; exact hne)
  rw [htake] at hr
  simpa using hr

/-- Witness for **C7**: a prologue whose first magic byte is 42 is
rejected with `BadMagic` reporting the bytes seen. -/
theorem c7_witness :
    File.parse_ident { data := [42, 0x45, 0x4c, 0x46, 1, 1, 1, 0, 0, 0, 0, 0, 0, 0, 0, 0],
                       pos := 0, reads := 0, seeks := 0 } =
      .error (.badMagic [42, 0x45, 0x4c, 0x46]) := by
  have h := c7_bad_magic.2 0 42 [1, 1, 1, 0, 0, 0, 0, 0, 0, 0, 0, 0] 0 0
    (by decide) (by decide) (by decide)
  simpa [ELFMAGIC] using h

/-- **C8**: ident validation on a prologue with correct magic but a
version byte other than `EV_CURRENT` fails with `UnsupportedVersion`
reporting the actual version byte. -/
theorem c8_unsupported_version :
    ∀ (cls dat v : Nat) (tail : List Nat) (r k : Nat), tail.length = 9 →
      v ≠ EV_CURRENT →
      File.parse_ident { data := ELFMAGIC ++ cls :: dat :: v :: tail,
                         pos := 0, reads := r, seeks := k } =
        .error (.unsupportedVersion v) := by
  intro cls dat v tail r k htail hv
  have h0 : (ELFMAGIC ++ cls :: dat :: v :: tail).drop 0 =
      (ELFMAGIC ++ cls :: dat :: v :: tail) ++ [] := by simp
  obtain ⟨h1, -⟩ := readBytes_chunk _ 0 r k EI_NIDENT _ _ h0
    (by simp [ELFMAGIC, EI_NIDENT, htail]) (by norm_num [EI_NIDENT])
  simp only [File.parse_ident, h1, Bind.bind, Except.bind]
  have hmagic : (ELFMAGIC ++ cls :: dat :: v :: tail).take EI_CLASS = ELFMAGIC :=
    List.take_left' (by rfl)
  rw [hmagic, if_neg (by simp)]
  have hver : (ELFMAGIC ++ cls :: dat :: v :: tail).getD EI_VERSION 0 = v := by
    simp [ELFMAGIC, EI_VERSION, List.getD]
  rw [hver, if_pos hv]

/-- Witness for **C8**: magic correct, version byte 9. -/
theorem c8_witness :
    File.parse_ident { data := [0x7f, 0x45, 0x4c, 0x46, 1, 1, 9, 0, 0, 0, 0, 0, 0, 0, 0, 0],
                       pos := 0, reads := 0, seeks := 0 } =
      .error (.unsupportedVersion 9) := by
  have h := c8_unsupported_version 1 1 9 [0, 0, 0, 0, 0, 0, 0, 0, 0] 0 0 (by decide) (by decide)
  simpa [ELFMAGIC] using h

/-- Every successful single-section load leaves the underlying stream
data unchanged. -/
theorem loadOne_ok_data {s : ByteStream} {sec sec' : Section} {s' : ByteStream}
    (h : loadOne s sec = .ok (sec', s')) : s'.data = s.data := by
  unfold loadOne at h
  split at h
  · injection h with h
    injection h with h1 h2
    subst h2
    rfl
  · split at h
    · exact absurd h (by simp)
    · rename_i bs s'' hr
      injection h with h
      injection h with h1 h2
      subst h2
      have := readBytes_ok_shape hr
      simpa [seekTo] using this.1

/-- **C4**: during section content loading, a `SHT_NOBITS` section is
returned unchanged with the stream untouched (same position, same read
and seek counters — no file access); a section of any other type has the
stream seeked to its `sh_offset` and exactly `sh_size` bytes read into
its content whenever they are available (including a zero-byte read,
which succeeds even past the end of the stream, as `read_exact` with an
empty buffer does), and produces the I/O failure error when `sh_size`
is positive and the stream is shorter than `sh_offset + sh_size`; and
the whole loading loop fails whenever it contains such an unsatisfiable
section. -/
theorem c4_section_content_loading :
    (∀ (s : ByteStream) (sec : Section), sec.shdr.sh_type = SHT_NOBITS →
      loadOne s sec = .ok (sec, s)) ∧
    (∀ (s : ByteStream) (sec : Section), sec.shdr.sh_type ≠ SHT_NOBITS →
      (sec.shdr.sh_size = 0 ∨
          sec.shdr.sh_offset + sec.shdr.sh_size ≤ s.data.length →
        loadOne s sec =
          .ok ({ sec with data := (s.data.drop sec.shdr.sh_offset).take sec.shdr.sh_size },
               { data := s.data, pos := sec.shdr.sh_offset + sec.shdr.sh_size,
                 reads := s.reads + 1, seeks := s.seeks + 1 }) ∧
        ((s.data.drop sec.shdr.sh_offset).take sec.shdr.sh_size).length =
          sec.shdr.sh_size) ∧
      (0 < sec.shdr.sh_size →
        s.data.length < sec.shdr.sh_offset + sec.shdr.sh_size →
        loadOne s sec = .error .ioFail)) ∧
    (∀ (s : ByteStream) (secs : List Section) (sec : Section), sec ∈ secs →
      sec.shdr.sh_type ≠ SHT_NOBITS → 0 < sec.shdr.sh_size →
      s.data.length < sec.shdr.sh_offset + sec.shdr.sh_size →
      ∃ e, loadAll s secs = .error e) := by
  have hnob : ∀ (s : ByteStream) (sec : Section), sec.shdr.sh_type = SHT_NOBITS →
      loadOne s sec = .ok (sec, s) := by
    intro s sec h
    unfold loadOne
    rw [if_pos h]
  have herr : ∀ (s : ByteStream) (sec : Section), sec.shdr.sh_type ≠ SHT_NOBITS →
      0 < sec.shdr.sh_size →
      s.data.length < sec.shdr.sh_offset + sec.shdr.sh_size →
      loadOne s sec = .error .ioFail := by
    intro s sec h hpos hlt
    unfold loadOne
    rw [if_neg h]
    have hcond : ¬ (sec.shdr.sh_size = 0 ∨
        (seekTo s sec.shdr.sh_offset).pos + sec.shdr.sh_size ≤
          (seekTo s sec.shdr.sh_offset).data.length) := by
      simp [seekTo]
      omega
    simp [readBytes, hcond]
  refine ⟨hnob, ?_, ?_⟩
  · intro s sec h
    constructor
    · intro hle
      rcases hle with h0 | hle
      · constructor
        · unfold loadOne
          rw [if_neg h]
          simp [readBytes, seekTo, h0]
        · simp [h0]
      · constructor
        · unfold loadOne
          rw [if_neg h]
          simp [readBytes, seekTo, hle]
        · simp [List.length_take, List.length_drop]
          omega
    · exact herr s sec h
  · intro s secs
    induction secs generalizing s with
    | nil => intro sec hmem; exact absurd hmem (by simp)
    | cons head t ih =>
      intro sec hmem hty hpos hlt
      rcases List.mem_cons.mp hmem with hh | ht
      · subst hh
        have h1 := herr s sec hty hpos hlt
        exact ⟨.ioFail, by simp [loadAll, h1, Bind.bind, Except.bind]⟩
      · cases hL : loadOne s head with
        | error e => exact ⟨e, by simp [loadAll, hL, Bind.bind, Except.bind]⟩
        | ok p =>
          obtain ⟨sec', s'⟩ := p
          have hdata : s'.data = s.data := loadOne_ok_data hL
          obtain ⟨e, he⟩ := ih s' sec ht hty hpos (by rw [hdata]; exact hlt)
          exact ⟨e, by simp [loadAll, hL, he, Bind.bind, Except.bind]⟩

/-- Witness for **C4**: on the 3-byte stream `[9, 8, 7]`, the
`SHT_NOBITS` section is untouched with no stream access; the ordinary
section declaring 2 bytes at offset 1 loads exactly `[8, 7]`; the
zero-size section at offset 7 (past the end of the 1-byte stream) loads
successfully with empty content; on the 1-byte stream the 2-byte
section fails, and a loading loop containing it fails. -/
theorem c4_witness :
    loadOne { data := [9, 8, 7], pos := 0, reads := 0, seeks := 0 } c4secNobits =
      .ok (c4secNobits, { data := [9, 8, 7], pos := 0, reads := 0, seeks := 0 }) ∧
    loadOne { data := [9, 8, 7], pos := 0, reads := 0, seeks := 0 } c4secLoad =
      .ok ({ c4secLoad with data := [8, 7] },
           { data := [9, 8, 7], pos := 3, reads := 1, seeks := 1 }) ∧
    loadOne { data := [9], pos := 0, reads := 0, seeks := 0 } c4secZero =
      .ok ({ c4secZero with data := [] },
           { data := [9], pos := 7, reads := 1, seeks := 1 }) ∧
    loadOne { data := [9], pos := 0, reads := 0, seeks := 0 } c4secLoad =
      .error .ioFail ∧
    (∃ e, loadAll { data := [9], pos := 0, reads := 0, seeks := 0 }
      [c4secNobits, c4secLoad] = .error e) := by
  obtain ⟨h1, h2, h3⟩ := c4_section_content_loading
  refine ⟨h1 _ c4secNobits rfl, ?_, ?_, ?_, ?_⟩
  · have h := ((h2 { data := [9, 8, 7], pos := 0, reads := 0, seeks := 0 }
      c4secLoad (by decide)).1 (by decide)).1
    simpa [c4secLoad] using h
  · have h := ((h2 { data := [9], pos := 0, reads := 0, seeks := 0 }
      c4secZero (by decide)).1 (Or.inl rfl)).1
    simpa [c4secZero] using h
  · exact (h2 { data := [9], pos := 0, reads := 0, seeks := 0 }
      c4secLoad (by decide)).2 (by decide) (by decide)
  · exact h3 { data := [9], pos := 0, reads := 0, seeks := 0 }
      [c4secNobits, c4secLoad] c4secLoad (by decide) (by decide) (by decide)
      (by decide)

/-- **C9**: `get_section` returns the *first* section in table order
whose name equals the given name, and `none` exactly when no section's
name matches. -/
theorem c9_get_section_first_match (f : File) (nm : List Nat) :
    (File.get_section f nm = none ↔ ∀ sec ∈ f.sections, sec.name ≠ nm) ∧
    (∀ sec, File.get_section f nm = some sec →
      sec.name = nm ∧ ∃ pre post, f.sections = pre ++ sec :: post ∧
        ∀ s' ∈ pre, s'.name ≠ nm) := by
  constructor
  · unfold File.get_section
    rw [List.find?_eq_none]
    constructor
    · intro h sec hmem
      have := h sec hmem
      simpa using this
    · intro h sec hmem
      simpa using h sec hmem
  · unfold File.get_section
    induction f.sections with
    | nil => intro sec h; simp [List.find?] at h
    | cons head t ih =>
      intro sec h
      rw [List.find?_cons] at h
      by_cases hh : head.name == nm
      · rw [hh] at h
        injection h with h
        subst h
        exact ⟨by simpa using hh, [], t, rfl, by simp⟩
      · rw [Bool.not_eq_true] at hh
        rw [hh] at h
        obtain ⟨hnm, pre, post, hsplit, hpre⟩ := ih sec h
        refine ⟨hnm, head :: pre, post, by rw [hsplit]; simp, ?_⟩
        intro s' hmem
        rcases List.mem_cons.mp hmem with h1 | h2
        · subst h1
          simpa using hh
        · exact hpre s' h2

/-- Witness for **C9**: in the file with sections named `"a"` then
`"b"`, looking up `"b"` (byte `[98]`) returns the second section, whose
name matches, with the non-matching `"a"` section before it; looking up
`"c"` (byte `[99]`) returns `none`. -/
theorem c9_witness :
    (c9secB.name = [98] ∧ ∃ pre post, c9file.sections = pre ++ c9secB :: post ∧
      ∀ s' ∈ pre, s'.name ≠ [98]) ∧
    (∀ sec ∈ c9file.sections, sec.name ≠ [99]) := by
  constructor
  · exact (c9_get_section_first_match c9file [98]).2 c9secB rfl
  · exact (c9_get_section_first_match c9file [99]).1.mp rfl

/-- **C3**: symbol records built from the same logical field values in
the 32-bit physical order (name-offset, value, size, info, other,
section-index) and the 64-bit physical order (name-offset, info, other,
section-index, value, size), decoded with their matching class and equal
endianness and string table, yield identical `Symbol` values; and when
the name resolves, the common value has the claimed fields — the name
from the table, the value, size and section index, type = low 4 bits of
info, binding = high 4 bits of info, visibility = low 2 bits of other. -/
theorem c3_symbol_class_agreement
    (h32 h64 : FileHeader) (e : Nat) (link : List Nat)
    (nameo value size info other shndx : Nat)
    (hc32 : h32.eclass = ELFCLASS32) (hc64 : h64.eclass = ELFCLASS64)
    (he32 : h32.endianness = e) (he64 : h64.endianness = e)
    (hn : nameo < 256 ^ 4) (hv : value < 256 ^ 4) (hs : size < 256 ^ 4)
    (hx : shndx < 256 ^ 2) :
    (File.parse_symbol h32 link
        { data := encodeSym32 e nameo value size info other shndx,
          pos := 0, reads := 0, seeks := 0 }).map Prod.fst =
      (File.parse_symbol h64 link
        { data := encodeSym64 e nameo value size info other shndx,
          pos := 0, reads := 0, seeks := 0 }).map Prod.fst ∧
    ∀ nm, get_string link nameo = .ok nm →
      (File.parse_symbol h32 link
        { data := encodeSym32 e nameo value size info other shndx,
          pos := 0, reads := 0, seeks := 0 }).map Prod.fst =
      .ok { name := nm, value := value, size := size, shndx := shndx,
            symtype := info &&& 0xf, bind := info >>> 4,
            vis := other &&& 0x3 } := by
  have hc64' : h64.eclass ≠ ELFCLASS32 := by
    rw [hc64]
    decide
  -- the 32-bit byte image, peeled chunk by chunk
  have h032 : (encodeSym32 e nameo value size info other shndx).drop 0 =
      encEnd e 4 nameo ++ (encEnd e 4 value ++ (encEnd e 4 size ++
        (info :: other :: encEnd e 2 shndx))) := by
    simp [encodeSym32]
  obtain ⟨r1, h1⟩ := readU32_chunk e 0 0 0 _ _ _ h032 hn
  norm_num at r1 h1
  obtain ⟨r2, h2⟩ := readU32_chunk e 4 1 0 _ _ _ h1 hv
  norm_num at r2 h2
  obtain ⟨r3, h3⟩ := readU32_chunk e 8 2 0 _ _ _ h2 hs
  norm_num at r3 h3
  obtain ⟨r4, h4⟩ := readByte1_chunk 12 3 0 _ _ _ h3
  norm_num at r4 h4
  obtain ⟨r5, h5⟩ := readByte1_chunk 13 4 0 _ _ _ h4
  norm_num at r5 h5
  obtain ⟨r6, -⟩ := readU16_chunk e 14 5 0 _ [] _
    (by rw [h5, List.append_nil]) hx
  norm_num at r6
  -- the 64-bit byte image, peeled chunk by chunk
  have h064 : (encodeSym64 e nameo value size info other shndx).drop 0 =
      encEnd e 4 nameo ++ (info :: other :: (encEnd e 2 shndx ++
        (encEnd e 8 value ++ encEnd e 8 size))) := by
    simp [encodeSym64]
  obtain ⟨q1, g1⟩ := readU32_chunk e 0 0 0 _ _ _ h064 hn
  norm_num at q1 g1
  obtain ⟨q2, g2⟩ := readByte1_chunk 4 1 0 _ _ _ g1
  norm_num at q2 g2
  obtain ⟨q3, g3⟩ := readByte1_chunk 5 2 0 _ _ _ g2
  norm_num at q3 g3
  obtain ⟨q4, g4⟩ := readU16_chunk e 6 3 0 _ _ _ g3 hx
  norm_num at q4 g4
  obtain ⟨q5, g5⟩ := readU64_chunk e 8 4 0 _ _ _ g4
    (lt_of_lt_of_le hv (by norm_num))
  norm_num at q5 g5
  obtain ⟨q6, -⟩ := readU64_chunk e 16 5 0 _ [] _
    (by rw [g5, List.append_nil]) (lt_of_lt_of_le hs (by norm_num))
  norm_num at q6
  cases hgs : get_string link nameo with
  | error er =>
    have p32 : (File.parse_symbol h32 link
        { data := encodeSym32 e nameo value size info other shndx,
          pos := 0, reads := 0, seeks := 0 }) = .error er := by
      simp [File.parse_symbol, readSymFields, hc32, he32, r1, r2, r3, r4, r5, r6, hgs,
        Bind.bind, Except.bind, Pure.pure, Except.pure]
    have p64 : (File.parse_symbol h64 link
        { data := encodeSym64 e nameo value size info other shndx,
          pos := 0, reads := 0, seeks := 0 }) = .error er := by
      simp [File.parse_symbol, readSymFields, hc64', he64, q1, q2, q3, q4, q5, q6, hgs,
        Bind.bind, Except.bind, Pure.pure, Except.pure]
    refine ⟨by rw [p32, p64], ?_⟩
    intro nm hnm
    exact Except.noConfusion hnm
  | ok nm =>
    have p32 : (File.parse_symbol h32 link
        { data := encodeSym32 e nameo value size info other shndx,
          pos := 0, reads := 0, seeks := 0 }) =
        .ok ({ name := nm, value := value, size := size, shndx := shndx,
               symtype := info &&& 0xf, bind := info >>> 4,
               vis := other &&& 0x3 },
             { data := encodeSym32 e nameo value size info other shndx,
               pos := 16, reads := 6, seeks := 0 }) := by
      simp [File.parse_symbol, readSymFields, hc32, he32, r1, r2, r3, r4, r5, r6, hgs,
        Bind.bind, Except.bind, Pure.pure, Except.pure]
    have p64 : (File.parse_symbol h64 link
        { data := encodeSym64 e nameo value size info other shndx,
          pos := 0, reads := 0, seeks := 0 }) =
        .ok ({ name := nm, value := value, size := size, shndx := shndx,
               symtype := info &&& 0xf, bind := info >>> 4,
               vis := other &&& 0x3 },
             { data := encodeSym64 e nameo value size info other shndx,
               pos := 24, reads := 6, seeks := 0 }) := by
      simp [File.parse_symbol, readSymFields, hc64', he64, q1, q2, q3, q4, q5, q6, hgs,
        Bind.bind, Except.bind, Pure.pure, Except.pure]
    refine ⟨by rw [p32, p64]; rfl, ?_⟩
    intro nm' hnm
    injection hnm with h
    subst h
    rw [p32]
    rfl

/-- Witness for **C3**: the record (name-offset 0, value 7, size 9,
info `0x21`, other 2, section index 4), little-endian, against the
one-byte string table `[0]`, decodes identically under both classes to
the symbol with empty name, type 1, binding 2, visibility 2. -/
theorem c3_witness :
    (File.parse_symbol hdr32LE [0]
        { data := encodeSym32 1 0 7 9 0x21 2 4,
          pos := 0, reads := 0, seeks := 0 }).map Prod.fst =
      (File.parse_symbol hdr64LE [0]
        { data := encodeSym64 1 0 7 9 0x21 2 4,
          pos := 0, reads := 0, seeks := 0 }).map Prod.fst ∧
    (File.parse_symbol hdr32LE [0]
        { data := encodeSym32 1 0 7 9 0x21 2 4,
          pos := 0, reads := 0, seeks := 0 }).map Prod.fst =
      .ok { name := [], value := 7, size := 9, shndx := 4,
            symtype := 0x21 &&& 0xf, bind := 0x21 >>> 4,
            vis := 2 &&& 0x3 } := by
  have h := c3_symbol_class_agreement hdr32LE hdr64LE 1 [0] 0 7 9 0x21 2 4
    rfl rfl rfl rfl (by norm_num) (by norm_num) (by norm_num) (by norm_num)
  exact ⟨h.1, h.2 [] rfl⟩

/-- A successful `readAddrs` consumes 12 or 24 bytes according to class. -/
theorem readAddrs_ok_shape {endian cls : Nat} {s : ByteStream}
    {a b c : Nat} {s' : ByteStream}
    (h : readAddrs endian cls s = .ok (a, b, c, s')) :
    s'.data = s.data ∧
    s'.pos = s.pos + (if cls = ELFCLASS32 then 12 else 24) ∧
    s.pos + (if cls = ELFCLASS32 then 12 else 24) ≤ s.data.length := by
  unfold readAddrs at h
  by_cases hcls : cls = ELFCLASS32
  · rw [if_pos hcls] at h ⊢
    obtain ⟨⟨w1, t1⟩, f1, h⟩ := bind_ok_inv h
    obtain ⟨⟨w2, t2⟩, f2, h⟩ := bind_ok_inv h
    obtain ⟨⟨w3, t3⟩, f3, h⟩ := bind_ok_inv h
    obtain ⟨g1d, g1p, g1le⟩ := readU32_ok_shape f1
    obtain ⟨g2d, g2p, g2le⟩ := readU32_ok_shape f2
    obtain ⟨g3d, g3p, g3le⟩ := readU32_ok_shape f3
    have hs : t3 = s' := by
      injection h with h
      injection h with _ h
      injection h with _ h
      injection h with _ h
    subst hs
    rw [g2d, g1d] at g3d g3le
    rw [g2p, g1p] at g3p g3le
    exact ⟨g3d, by omega, by omega⟩
  · rw [if_neg hcls] at h ⊢
    obtain ⟨⟨w1, t1⟩, f1, h⟩ := bind_ok_inv h
    obtain ⟨⟨w2, t2⟩, f2, h⟩ := bind_ok_inv h
    obtain ⟨⟨w3, t3⟩, f3, h⟩ := bind_ok_inv h
    obtain ⟨g1d, g1p, g1le⟩ := readU64_ok_shape f1
    obtain ⟨g2d, g2p, g2le⟩ := readU64_ok_shape f2
    obtain ⟨g3d, g3p, g3le⟩ := readU64_ok_shape f3
    have hs : t3 = s' := by
      injection h with h
      injection h with _ h
      injection h with _ h
      injection h with _ h
    subst hs
    rw [g2d, g1d] at g3d g3le
    rw [g2p, g1p] at g3p g3le
    exact ⟨g3d, by omega, by omega⟩

/-- A successful `parse_ehdr` consumes exactly `ehdrSize` bytes past the
current position, so at least that many must be available. -/
theorem parse_ehdr_ok_bytes {ident : List Nat} {s : ByteStream}
    {h : FileHeader} {s' : ByteStream}
    (hok : File.parse_ehdr ident s = .ok (h, s')) :
    s.pos + ehdrSize (ident.getD EI_CLASS 0) ≤ s.data.length := by
  unfold File.parse_ehdr at hok
  obtain ⟨⟨v1, s1⟩, e1, hok⟩ := bind_ok_inv hok
  obtain ⟨⟨v2, s2⟩, e2, hok⟩ := bind_ok_inv hok
  obtain ⟨⟨v3, s3⟩, e3, hok⟩ := bind_ok_inv hok
  obtain ⟨⟨entry, phoff, shoff, s4⟩, e4, hok⟩ := bind_ok_inv hok
  obtain ⟨⟨v5, s5⟩, e5, hok⟩ := bind_ok_inv hok
  obtain ⟨⟨v6, s6⟩, e6, hok⟩ := bind_ok_inv hok
  obtain ⟨⟨v7, s7⟩, e7, hok⟩ := bind_ok_inv hok
  obtain ⟨⟨v8, s8⟩, e8, hok⟩ := bind_ok_inv hok
  obtain ⟨⟨v9, s9⟩, e9, hok⟩ := bind_ok_inv hok
  obtain ⟨⟨v10, s10⟩, e10, hok⟩ := bind_ok_inv hok
  obtain ⟨⟨v11, s11⟩, e11, hok⟩ := bind_ok_inv hok
  obtain ⟨h1d, h1p, h1le⟩ := readU16_ok_shape e1
  obtain ⟨h2d, h2p, h2le⟩ := readU16_ok_shape e2
  obtain ⟨h3d, h3p, h3le⟩ := readU32_ok_shape e3
  obtain ⟨h4d, h4p, h4le⟩ := readAddrs_ok_shape e4
  obtain ⟨h5d, h5p, h5le⟩ := readU32_ok_shape e5
  obtain ⟨h6d, h6p, h6le⟩ := readU16_ok_shape e6
  obtain ⟨h7d, h7p, h7le⟩ := readU16_ok_shape e7
  obtain ⟨h8d, h8p, h8le⟩ := readU16_ok_shape e8
  obtain ⟨h9d, h9p, h9le⟩ := readU16_ok_shape e9
  obtain ⟨h10d, h10p, h10le⟩ := readU16_ok_shape e10
  obtain ⟨h11d, h11p, h11le⟩ := readU16_ok_shape e11
  unfold ehdrSize
  by_cases hcls : ident.getD EI_CLASS 0 = ELFCLASS32
  · rw [if_pos hcls]
    rw [if_pos hcls] at h4p h4le
    rw [h10d, h9d, h8d, h7d, h6d, h5d, h4d, h3d, h2d, h1d] at h11le
    rw [h10p, h9p, h8p, h7p, h6p, h5p, h4p, h3p, h2p, h1p] at h11le
    omega
  · rw [if_neg hcls]
    rw [if_neg hcls] at h4p h4le
    rw [h10d, h9d, h8d, h7d, h6d, h5d, h4d, h3d, h2d, h1d] at h11le
    rw [h10p, h9p, h8p, h7p, h6p, h5p, h4p, h3p, h2p, h1p] at h11le
    omega

/-- **C5**: the header decoder reads, in order, object type (2 bytes),
architecture (2), version (4), then entry point, segment-table offset
and section-table offset — 4 bytes each (zero-extended) when the ident
class byte is `ELFCLASS32` and 8 bytes each when it is `ELFCLASS64` —
then flags (4) and the six 2-byte fields, all in the byte order named by
the ident endianness byte (first and second conjuncts, for a header
image built in exactly that layout); and it fails whenever fewer bytes
remain than the full header needs (third conjunct). -/
theorem c5_ehdr_layout :
    (∀ (e : Nat) (ident : List Nat) (r k : Nat)
       (typ arch ver entry phoff shoff flags ehsize phentsize phnum
        shentsize shnum shstrndx : Nat) (rest : List Nat),
      ident.getD EI_CLASS 0 = ELFCLASS32 → ident.getD EI_DATA 0 = e →
      typ < 256 ^ 2 → arch < 256 ^ 2 → ver < 256 ^ 4 → entry < 256 ^ 4 →
      phoff < 256 ^ 4 → shoff < 256 ^ 4 → flags < 256 ^ 4 →
      ehsize < 256 ^ 2 → phentsize < 256 ^ 2 → phnum < 256 ^ 2 →
      shentsize < 256 ^ 2 → shnum < 256 ^ 2 → shstrndx < 256 ^ 2 →
      File.parse_ehdr ident
        { data := encodeEhdr32 e typ arch ver entry phoff shoff flags
             ehsize phentsize phnum shentsize shnum shstrndx ++ rest,
           pos := 0, reads := r, seeks := k } =
        .ok
          ({ eclass := ELFCLASS32, endianness := e, version := ver,
              elftype := typ, arch := arch, osabi := ident.getD EI_OSABI 0,
              abiversion := ident.getD EI_ABIVERSION 0, e_entry := entry,
              e_phoff := phoff, e_shoff := shoff, e_flags := flags,
              e_ehsize := ehsize, e_phentsize := phentsize, e_phnum := phnum,
              e_shentsize := shentsize, e_shnum := shnum,
              e_shstrndx := shstrndx },
             { data := encodeEhdr32 e typ arch ver entry phoff shoff flags
                  ehsize phentsize phnum shentsize shnum shstrndx ++ rest,
                pos := 36, reads := r + 13, seeks := k })) ∧
    (∀ (e : Nat) (ident : List Nat) (r k : Nat)
       (typ arch ver entry phoff shoff flags ehsize phentsize phnum
        shentsize shnum shstrndx : Nat) (rest : List Nat),
      ident.getD EI_CLASS 0 = ELFCLASS64 → ident.getD EI_DATA 0 = e →
      typ < 256 ^ 2 → arch < 256 ^ 2 → ver < 256 ^ 4 → entry < 256 ^ 8 →
      phoff < 256 ^ 8 → shoff < 256 ^ 8 → flags < 256 ^ 4 →
      ehsize < 256 ^ 2 → phentsize < 256 ^ 2 → phnum < 256 ^ 2 →
      shentsize < 256 ^ 2 → shnum < 256 ^ 2 → shstrndx < 256 ^ 2 →
      File.parse_ehdr ident
        { data := encodeEhdr64 e typ arch ver entry phoff shoff flags
             ehsize phentsize phnum shentsize shnum shstrndx ++ rest,
           pos := 0, reads := r, seeks := k } =
        .ok
          ({ eclass := ELFCLASS64, endianness := e, version := ver,
              elftype := typ, arch := arch, osabi := ident.getD EI_OSABI 0,
              abiversion := ident.getD EI_ABIVERSION 0, e_entry := entry,
              e_phoff := phoff, e_shoff := shoff, e_flags := flags,
              e_ehsize := ehsize, e_phentsize := phentsize, e_phnum := phnum,
              e_shentsize := shentsize, e_shnum := shnum,
              e_shstrndx := shstrndx },
             { data := encodeEhdr64 e typ arch ver entry phoff shoff flags
                  ehsize phentsize phnum shentsize shnum shstrndx ++ rest,
                pos := 48, reads := r + 13, seeks := k })) ∧
    (∀ (ident : List Nat) (s : ByteStream),
      s.data.length < s.pos + ehdrSize (ident.getD EI_CLASS 0) →
      ∃ er, File.parse_ehdr ident s = .error er) := by
  refine ⟨?_, ?_, ?_⟩
  · intro e ident r k typ arch ver entry phoff shoff flags ehsize phentsize
      phnum shentsize shnum shstrndx rest hcl hend hb1 hb2 hb3 hb4 hb5 hb6
      hb7 hb8 hb9 hb10 hb11 hb12 hb13
    have ha0 : (encodeEhdr32 e typ arch ver entry phoff shoff flags ehsize
        phentsize phnum shentsize shnum shstrndx ++ rest).drop 0 =
        encEnd e 2 typ ++ (encEnd e 2 arch ++ (encEnd e 4 ver ++ (encEnd e 4 entry ++ (encEnd e 4 phoff ++ (encEnd e 4 shoff ++ (encEnd e 4 flags ++ (encEnd e 2 ehsize ++ (encEnd e 2 phentsize ++ (encEnd e 2 phnum ++ (encEnd e 2 shentsize ++ (encEnd e 2 shnum ++ (encEnd e 2 shstrndx ++ (rest))))))))))))) := by
      simp [encodeEhdr32]
    obtain ⟨qa1, ha1⟩ := readU16_chunk e 0 r k _ _ _ ha0 hb1
    norm_num at qa1 ha1
    obtain ⟨qa2, ha2⟩ := readU16_chunk e 2 (r + 1) k _ _ _ ha1 hb2
    norm_num at qa2 ha2
    obtain ⟨qa3, ha3⟩ := readU32_chunk e 4 (r + 2) k _ _ _ ha2 hb3
    norm_num at qa3 ha3
    obtain ⟨qa4, ha4⟩ := readU32_chunk e 8 (r + 3) k _ _ _ ha3 hb4
    norm_num at qa4 ha4
    obtain ⟨qa5, ha5⟩ := readU32_chunk e 12 (r + 4) k _ _ _ ha4 hb5
    norm_num at qa5 ha5
    obtain ⟨qa6, ha6⟩ := readU32_chunk e 16 (r + 5) k _ _ _ ha5 hb6
    norm_num at qa6 ha6
    obtain ⟨qa7, ha7⟩ := readU32_chunk e 20 (r + 6) k _ _ _ ha6 hb7
    norm_num at qa7 ha7
    obtain ⟨qa8, ha8⟩ := readU16_chunk e 24 (r + 7) k _ _ _ ha7 hb8
    norm_num at qa8 ha8
    obtain ⟨qa9, ha9⟩ := readU16_chunk e 26 (r + 8) k _ _ _ ha8 hb9
    norm_num at qa9 ha9
    obtain ⟨qa10, ha10⟩ := readU16_chunk e 28 (r + 9) k _ _ _ ha9 hb10
    norm_num at qa10 ha10
    obtain ⟨qa11, ha11⟩ := readU16_chunk e 30 (r + 10) k _ _ _ ha10 hb11
    norm_num at qa11 ha11
    obtain ⟨qa12, ha12⟩ := readU16_chunk e 32 (r + 11) k _ _ _ ha11 hb12
    norm_num at qa12 ha12
    obtain ⟨qa13, -⟩ := readU16_chunk e 34 (r + 12) k _ _ _ ha12 hb13
    norm_num at qa13
    simp at hcl hend
    simp [File.parse_ehdr, readAddrs, List.getD, hcl, hend, qa1, qa2, qa3,
      qa4, qa5, qa6, qa7, qa8, qa9, qa10, qa11, qa12, qa13,
      Bind.bind, Except.bind]
  · intro e ident r k typ arch ver entry phoff shoff flags ehsize phentsize
      phnum shentsize shnum shstrndx rest hcl hend hb1 hb2 hb3 hb4 hb5 hb6
      hb7 hb8 hb9 hb10 hb11 hb12 hb13
    have hb0 : (encodeEhdr64 e typ arch ver entry phoff shoff flags ehsize
        phentsize phnum shentsize shnum shstrndx ++ rest).drop 0 =
        encEnd e 2 typ ++ (encEnd e 2 arch ++ (encEnd e 4 ver ++ (encEnd e 8 entry ++ (encEnd e 8 phoff ++ (encEnd e 8 shoff ++ (encEnd e 4 flags ++ (encEnd e 2 ehsize ++ (encEnd e 2 phentsize ++ (encEnd e 2 phnum ++ (encEnd e 2 shentsize ++ (encEnd e 2 shnum ++ (encEnd e 2 shstrndx ++ (rest))))))))))))) := by
      simp [encodeEhdr64]
    obtain ⟨qb1, hb1⟩ := readU16_chunk e 0 r k _ _ _ hb0 hb1
    norm_num at qb1 hb1
    obtain ⟨qb2, hb2⟩ := readU16_chunk e 2 (r + 1) k _ _ _ hb1 hb2
    norm_num at qb2 hb2
    obtain ⟨qb3, hb3⟩ := readU32_chunk e 4 (r + 2) k _ _ _ hb2 hb3
    norm_num at qb3 hb3
    obtain ⟨qb4, hb4⟩ := readU64_chunk e 8 (r + 3) k _ _ _ hb3 hb4
    norm_num at qb4 hb4
    obtain ⟨qb5, hb5⟩ := readU64_chunk e 16 (r + 4) k _ _ _ hb4 hb5
    norm_num at qb5 hb5
    obtain ⟨qb6, hb6⟩ := readU64_chunk e 24 (r + 5) k _ _ _ hb5 hb6
    norm_num at qb6 hb6
    obtain ⟨qb7, hb7⟩ := readU32_chunk e 32 (r + 6) k _ _ _ hb6 hb7
    norm_num at qb7 hb7
    obtain ⟨qb8, hb8⟩ := readU16_chunk e 36 (r + 7) k _ _ _ hb7 hb8
    norm_num at qb8 hb8
    obtain ⟨qb9, hb9⟩ := readU16_chunk e 38 (r + 8) k _ _ _ hb8 hb9
    norm_num at qb9 hb9
    obtain ⟨qb10, hb10⟩ := readU16_chunk e 40 (r + 9) k _ _ _ hb9 hb10
    norm_num at qb10 hb10
    obtain ⟨qb11, hb11⟩ := readU16_chunk e 42 (r + 10) k _ _ _ hb10 hb11
    norm_num at qb11 hb11
    obtain ⟨qb12, hb12⟩ := readU16_chunk e 44 (r + 11) k _ _ _ hb11 hb12
    norm_num at qb12 hb12
    obtain ⟨qb13, -⟩ := readU16_chunk e 46 (r + 12) k _ _ _ hb12 hb13
    norm_num at qb13
    simp at hcl hend
    simp [File.parse_ehdr, readAddrs, List.getD, hcl, hend, ELFCLASS32,
      ELFCLASS64, qb1, qb2, qb3, qb4, qb5, qb6, qb7, qb8, qb9, qb10, qb11,
      qb12, qb13, Bind.bind, Except.bind]
  · intro ident s hlt
    cases hp : File.parse_ehdr ident s with
    | error er => exact ⟨er, rfl⟩
    | ok p =>
      obtain ⟨h, s'⟩ := p
      exact absurd (parse_ehdr_ok_bytes hp) (by omega)

/-- Witness for **C5**: a concrete little-endian ident and header image
for each class decodes to the expected header (13 reads, 36 or 48 bytes
consumed), and a 3-byte stream is rejected. -/
theorem c5_witness :
    File.parse_ehdr [0x7f, 0x45, 0x4c, 0x46, 1, 1, 1, 3, 7, 0, 0, 0, 0, 0, 0, 0]
      { data := encodeEhdr32 1 2 3 4 5 6 7 8 9 10 11 12 13 14 ++ [],
        pos := 0, reads := 0, seeks := 0 } =
      .ok ({ eclass := ELFCLASS32, endianness := 1, version := 4,
             elftype := 2, arch := 3, osabi := 3, abiversion := 7,
             e_entry := 5, e_phoff := 6, e_shoff := 7, e_flags := 8,
             e_ehsize := 9, e_phentsize := 10, e_phnum := 11,
             e_shentsize := 12, e_shnum := 13, e_shstrndx := 14 },
           { data := encodeEhdr32 1 2 3 4 5 6 7 8 9 10 11 12 13 14 ++ [],
             pos := 36, reads := 13, seeks := 0 }) ∧
    File.parse_ehdr [0x7f, 0x45, 0x4c, 0x46, 2, 1, 1, 3, 7, 0, 0, 0, 0, 0, 0, 0]
      { data := encodeEhdr64 1 2 3 4 5 6 7 8 9 10 11 12 13 14 ++ [],
        pos := 0, reads := 0, seeks := 0 } =
      .ok ({ eclass := ELFCLASS64, endianness := 1, version := 4,
             elftype := 2, arch := 3, osabi := 3, abiversion := 7,
             e_entry := 5, e_phoff := 6, e_shoff := 7, e_flags := 8,
             e_ehsize := 9, e_phentsize := 10, e_phnum := 11,
             e_shentsize := 12, e_shnum := 13, e_shstrndx := 14 },
           { data := encodeEhdr64 1 2 3 4 5 6 7 8 9 10 11 12 13 14 ++ [],
             pos := 48, reads := 13, seeks := 0 }) ∧
    (∃ er, File.parse_ehdr [0x7f, 0x45, 0x4c, 0x46, 1, 1, 1, 3, 7, 0, 0, 0, 0, 0, 0, 0]
      { data := [1, 2, 3], pos := 0, reads := 0, seeks := 0 } = .error er) := by
  refine ⟨?_, ?_, ?_⟩
  · have h := c5_ehdr_layout.1 1
      [0x7f, 0x45, 0x4c, 0x46, 1, 1, 1, 3, 7, 0, 0, 0, 0, 0, 0, 0] 0 0
      2 3 4 5 6 7 8 9 10 11 12 13 14 [] (by rfl) (by rfl)
      (by norm_num) (by norm_num) (by norm_num) (by norm_num) (by norm_num)
      (by norm_num) (by norm_num) (by norm_num) (by norm_num) (by norm_num)
      (by norm_num) (by norm_num) (by norm_num)
    simpa using h
  · have h := c5_ehdr_layout.2.1 1
      [0x7f, 0x45, 0x4c, 0x46, 2, 1, 1, 3, 7, 0, 0, 0, 0, 0, 0, 0] 0 0
      2 3 4 5 6 7 8 9 10 11 12 13 14 [] (by rfl) (by rfl)
      (by norm_num) (by norm_num) (by norm_num) (by norm_num) (by norm_num)
      (by norm_num) (by norm_num) (by norm_num) (by norm_num) (by norm_num)
      (by norm_num) (by norm_num) (by norm_num)
    simpa using h
  · exact c5_ehdr_layout.2.2
      [0x7f, 0x45, 0x4c, 0x46, 1, 1, 1, 3, 7, 0, 0, 0, 0, 0, 0, 0]
      { data := [1, 2, 3], pos := 0, reads := 0, seeks := 0 }
      (by norm_num [ehdrSize, EI_CLASS, ELFCLASS32, List.getD])

/-! ## Symbol-decoding loop lemmas -/

theorem readBytes_ok_of {s : ByteStream} {n : Nat}
    (h : s.pos + n ≤ s.data.length) :
    readBytes s n = .ok ((s.data.drop s.pos).take n,
      { s with pos := s.pos + n, reads := s.reads + 1 }) := by
  simp [readBytes, h]

theorem readU16_ok_of {e : Nat} {s : ByteStream}
    (h : s.pos + 2 ≤ s.data.length) :
    readU16 e s = .ok (decodeEnd e ((s.data.drop s.pos).take 2),
      { s with pos := s.pos + 2, reads := s.reads + 1 }) := by
  simp [readU16, readBytes_ok_of h]

theorem readU32_ok_of {e : Nat} {s : ByteStream}
    (h : s.pos + 4 ≤ s.data.length) :
    readU32 e s = .ok (decodeEnd e ((s.data.drop s.pos).take 4),
      { s with pos := s.pos + 4, reads := s.reads + 1 }) := by
  simp [readU32, readBytes_ok_of h]

theorem readU64_ok_of {e : Nat} {s : ByteStream}
    (h : s.pos + 8 ≤ s.data.length) :
    readU64 e s = .ok (decodeEnd e ((s.data.drop s.pos).take 8),
      { s with pos := s.pos + 8, reads := s.reads + 1 }) := by
  simp [readU64, readBytes_ok_of h]

/-- The record size is at least 16 and positive. -/
theorem recSize_ge_16 (h : FileHeader) : 16 ≤ recSize h := by
  unfold recSize
  split <;> norm_num

/-- A successful `readSymFields` consumes exactly one record and leaves
the data unchanged. -/
theorem readSymFields_ok_shape {h : FileHeader} {s : ByteStream}
    {a b c d0 e0 f0 : Nat} {s' : ByteStream}
    (hok : readSymFields h s = .ok (a, b, c, d0, e0, f0, s')) :
    s'.data = s.data ∧ s'.pos = s.pos + recSize h ∧
    s.pos + recSize h ≤ s.data.length := by
  unfold readSymFields at hok
  by_cases hcls : h.eclass = ELFCLASS32
  · rw [if_pos hcls] at hok
    unfold recSize
    rw [if_pos hcls]
    obtain ⟨⟨w1, t1⟩, f1, hok⟩ := bind_ok_inv hok
    obtain ⟨⟨w2, t2⟩, f2, hok⟩ := bind_ok_inv hok
    obtain ⟨⟨w3, t3⟩, f3, hok⟩ := bind_ok_inv hok
    obtain ⟨⟨w4, t4⟩, f4, hok⟩ := bind_ok_inv hok
    obtain ⟨⟨w5, t5⟩, f5, hok⟩ := bind_ok_inv hok
    obtain ⟨⟨w6, t6⟩, f6, hok⟩ := bind_ok_inv hok
    have hs : t6 = s' := by
      injection hok with hok
      injection hok with _ hok
      injection hok with _ hok
      injection hok with _ hok
      injection hok with _ hok
      injection hok with _ hok
      injection hok with _ hok
    subst hs
    obtain ⟨g1d, g1p, g1le⟩ := readU32_ok_shape f1
    obtain ⟨g2d, g2p, g2le⟩ := readU32_ok_shape f2
    obtain ⟨g3d, g3p, g3le⟩ := readU32_ok_shape f3
    obtain ⟨g4d, g4p, g4le, -, -, -⟩ := readBytes_ok_shape f4
    obtain ⟨g5d, g5p, g5le, -, -, -⟩ := readBytes_ok_shape f5
    obtain ⟨g6d, g6p, g6le⟩ := readU16_ok_shape f6
    rw [g5d, g4d, g3d, g2d, g1d] at g6d g6le
    rw [g5p, g4p, g3p, g2p, g1p] at g6p g6le
    exact ⟨g6d, by omega, by omega⟩
  · rw [if_neg hcls] at hok
    unfold recSize
    rw [if_neg hcls]
    obtain ⟨⟨w1, t1⟩, f1, hok⟩ := bind_ok_inv hok
    obtain ⟨⟨w2, t2⟩, f2, hok⟩ := bind_ok_inv hok
    obtain ⟨⟨w3, t3⟩, f3, hok⟩ := bind_ok_inv hok
    obtain ⟨⟨w4, t4⟩, f4, hok⟩ := bind_ok_inv hok
    obtain ⟨⟨w5, t5⟩, f5, hok⟩ := bind_ok_inv hok
    obtain ⟨⟨w6, t6⟩, f6, hok⟩ := bind_ok_inv hok
    have hs : t6 = s' := by
      injection hok with hok
      injection hok with _ hok
      injection hok with _ hok
      injection hok with _ hok
      injection hok with _ hok
      injection hok with _ hok
      injection hok with _ hok
    subst hs
    obtain ⟨g1d, g1p, g1le⟩ := readU32_ok_shape f1
    obtain ⟨g2d, g2p, g2le, -, -, -⟩ := readBytes_ok_shape f2
    obtain ⟨g3d, g3p, g3le, -, -, -⟩ := readBytes_ok_shape f3
    obtain ⟨g4d, g4p, g4le⟩ := readU16_ok_shape f4
    obtain ⟨g5d, g5p, g5le⟩ := readU64_ok_shape f5
    obtain ⟨g6d, g6p, g6le⟩ := readU64_ok_shape f6
    rw [g5d, g4d, g3d, g2d, g1d] at g6d g6le
    rw [g5p, g4p, g3p, g2p, g1p] at g6p g6le
    exact ⟨g6d, by omega, by omega⟩

/-- When a whole record's bytes are available, `readSymFields` succeeds,
its name-offset field is the first 4 bytes at the cursor, and it leaves
the cursor one record further. -/
theorem readSymFields_ok_of {h : FileHeader} {s : ByteStream}
    (hbytes : s.pos + recSize h ≤ s.data.length) :
    ∃ b c d0 e0 f0, readSymFields h s =
      .ok (decodeEnd h.endianness ((s.data.drop s.pos).take 4), b, c, d0, e0, f0,
           { data := s.data, pos := s.pos + recSize h,
             reads := s.reads + 6, seeks := s.seeks }) := by
  by_cases hcls : h.eclass = ELFCLASS32
  · rw [recSize, if_pos hcls] at hbytes
    refine ⟨decodeEnd h.endianness ((s.data.drop (s.pos + 4)).take 4),
      decodeEnd h.endianness ((s.data.drop (s.pos + 8)).take 4),
      ((s.data.drop (s.pos + 12)).take 1).getD 0 0,
      ((s.data.drop (s.pos + 13)).take 1).getD 0 0,
      decodeEnd h.endianness ((s.data.drop (s.pos + 14)).take 2), ?_⟩
    unfold readSymFields
    rw [if_pos hcls]
    rw [readU32_ok_of (by omega)]
    simp only [Bind.bind, Except.bind]
    rw [readU32_ok_of (by simp; omega)]
    simp only [Bind.bind, Except.bind]
    rw [readU32_ok_of (by simp; omega)]
    simp only [Bind.bind, Except.bind]
    rw [readBytes_ok_of (by simp; omega)]
    simp only [Bind.bind, Except.bind]
    rw [readBytes_ok_of (by simp; omega)]
    simp only [Bind.bind, Except.bind]
    rw [readU16_ok_of (by simp; omega)]
    simp only [Bind.bind, Except.bind]
    rw [recSize, if_pos hcls]
  · rw [recSize, if_neg hcls] at hbytes
    refine ⟨decodeEnd h.endianness ((s.data.drop (s.pos + 8)).take 8),
      decodeEnd h.endianness ((s.data.drop (s.pos + 16)).take 8),
      ((s.data.drop (s.pos + 4)).take 1).getD 0 0,
      ((s.data.drop (s.pos + 5)).take 1).getD 0 0,
      decodeEnd h.endianness ((s.data.drop (s.pos + 6)).take 2), ?_⟩
    unfold readSymFields
    rw [if_neg hcls]
    rw [readU32_ok_of (by omega)]
    simp only [Bind.bind, Except.bind]
    rw [readBytes_ok_of (by simp; omega)]
    simp only [Bind.bind, Except.bind]
    rw [readBytes_ok_of (by simp; omega)]
    simp only [Bind.bind, Except.bind]
    rw [readU16_ok_of (by simp; omega)]
    simp only [Bind.bind, Except.bind]
    rw [readU64_ok_of (by simp; omega)]
    simp only [Bind.bind, Except.bind]
    rw [readU64_ok_of (by simp; omega)]
    simp only [Bind.bind, Except.bind]
    rw [recSize, if_neg hcls]

/-- A successful `parse_symbol` consumes exactly one record and leaves
the data unchanged. -/
theorem parse_symbol_ok_shape {h : FileHeader} {link : List Nat}
    {s : ByteStream} {sym : Symbol} {s' : ByteStream}
    (hok : File.parse_symbol h link s = .ok (sym, s')) :
    s'.data = s.data ∧ s'.pos = s.pos + recSize h ∧
    s.pos + recSize h ≤ s.data.length := by
  unfold File.parse_symbol at hok
  obtain ⟨⟨a, b, c, d0, e0, f0, s1⟩, e1, hok⟩ := bind_ok_inv hok
  obtain ⟨nm, e2, hok⟩ := bind_ok_inv hok
  have hs : s1 = s' := by
    injection hok with hok
    injection hok with _ hok
  subst hs
  exact readSymFields_ok_shape e1

/-- `parse_symbol` succeeds when a whole record's bytes are available
and its name-offset resolves in the linked table. -/
theorem parse_symbol_ok_of {h : FileHeader} {link : List Nat}
    {s : ByteStream} {nm : List Nat}
    (hbytes : s.pos + recSize h ≤ s.data.length)
    (hname : get_string link
      (decodeEnd h.endianness ((s.data.drop s.pos).take 4)) = .ok nm) :
    ∃ sym s', File.parse_symbol h link s = .ok (sym, s') ∧
      s'.data = s.data ∧ s'.pos = s.pos + recSize h := by
  obtain ⟨b, c, d0, e0, f0, hrsf⟩ := readSymFields_ok_of hbytes
  refine ⟨{ name := nm, value := b, size := c, shndx := f0,
            symtype := d0 &&& 0xf, bind := d0 >>> 4, vis := e0 &&& 0x3 },
          { data := s.data, pos := s.pos + recSize h,
            reads := s.reads + 6, seeks := s.seeks }, ?_, rfl, rfl⟩
  simp [File.parse_symbol, hrsf, hname, Bind.bind, Except.bind]

/-- The symbol loop fails on content whose length is not a whole number
of records (from any in-loop cursor position). -/
theorem symLoopGo_err (h : FileHeader) (link d : List Nat)
    (hnm : ¬ (recSize h ∣ d.length)) :
    ∀ (fuel j : Nat) (s : ByteStream), s.data = d → s.pos = j * recSize h →
      j * recSize h ≤ d.length →
      ∃ e, symLoopGo h link fuel s = .error e := by
  intro fuel
  induction fuel with
  | zero => intro j s _ _ _; exact ⟨.ioFail, rfl⟩
  | succ fuel ih =>
    intro j s hd hp hle
    unfold symLoopGo
    by_cases hlt : s.pos < s.data.length
    · rw [if_pos hlt]
      cases hps : File.parse_symbol h link s with
      | error e => exact ⟨e, rfl⟩
      | ok p =>
        obtain ⟨sym, s'⟩ := p
        obtain ⟨hd', hp', hle'⟩ := parse_symbol_ok_shape hps
        have harg : (j + 1) * recSize h ≤ d.length := by
          rw [hp, hd] at hle'
          have h2 : (j + 1) * recSize h = j * recSize h + recSize h := by ring
          rw [h2]
          exact hle'
        obtain ⟨e, he⟩ := ih (j + 1) s' (by rw [hd', hd])
          (by rw [hp', hp]; ring) harg
        exact ⟨e, by simp [he]⟩
    · rw [if_neg hlt]
      exfalso
      apply hnm
      rw [hd] at hlt
      have h1 : s.pos ≤ d.length := by
        rw [hp]
        exact hle
      have hpl : s.pos = d.length := by omega
      exact ⟨j, by rw [← hpl, hp]; ring⟩

/-- The symbol loop succeeds on content that is a whole number `m` of
records all of whose name offsets resolve, producing one symbol per
remaining record. -/
theorem symLoopGo_ok (h : FileHeader) (link d : List Nat) {m : Nat}
    (hm : d.length = m * recSize h)
    (hnames : ∀ k, k < m →
      ∃ nm, get_string link (symNameOff h d k) = .ok nm) :
    ∀ (fuel j : Nat) (s : ByteStream), s.data = d → s.pos = j * recSize h →
      j ≤ m → m - j < fuel →
      ∃ syms, symLoopGo h link fuel s = .ok syms ∧ syms.length = m - j := by
  intro fuel
  induction fuel with
  | zero => intro j s _ _ _ hf; omega
  | succ fuel ih =>
    intro j s hd hp hj hf
    have hrec : 0 < recSize h := lt_of_lt_of_le (by norm_num) (recSize_ge_16 h)
    unfold symLoopGo
    by_cases hlt : s.pos < s.data.length
    · rw [if_pos hlt]
      have hjm : j < m := by
        rw [hd, hm, hp] at hlt
        exact Nat.lt_of_mul_lt_mul_right hlt
      have hbytes : s.pos + recSize h ≤ s.data.length := by
        rw [hd, hm, hp]
        calc j * recSize h + recSize h = (j + 1) * recSize h := by ring
          _ ≤ m * recSize h := Nat.mul_le_mul_right _ (by omega)
      obtain ⟨nm0, hnm0⟩ := hnames j hjm
      have hname' : get_string link
          (decodeEnd h.endianness ((s.data.drop s.pos).take 4)) = .ok nm0 := by
        rw [hd, hp]
        exact hnm0
      obtain ⟨sym, s', hps, hd', hp'⟩ := parse_symbol_ok_of hbytes hname'
      obtain ⟨syms, hloop, hlen⟩ := ih (j + 1) s' (by rw [hd', hd])
        (by rw [hp', hp]; ring) (by omega) (by omega)
      refine ⟨sym :: syms, by simp [hps, hloop], ?_⟩
      simp [hlen]
      omega
    · rw [if_neg hlt]
      have hlt' : ¬ (j * recSize h < m * recSize h) := by
        rw [hd, hm, hp] at hlt
        exact hlt
      have h3 : m * recSize h ≤ j * recSize h := by omega
      have hmle : m ≤ j := Nat.le_of_mul_le_mul_right h3 hrec
      have hjm : j = m := le_antisymm hj hmle
      refine ⟨[], rfl, ?_⟩
      simp [hjm]

/-- **C6** (counterexample).  The claim says that when a symbol-table
section's content length is an exact multiple of the record size,
decoding "stops cleanly with all records decoded".  `c6secBad` has
exactly one whole 16-byte record, yet `get_symbols` fails: the record's
name offset (5) is out of range of the linked one-byte string table, so
no record list is returned. -/
theorem c6_counterexample :
    File.get_symbols c6file c6secBad = .err .strOutOfRange := by
  rfl

/-- **C6** (amended): for a symbol-table or dynamic-symbol-table section
whose link index is in range, `get_symbols` decodes whole fixed-size
records until the content is consumed: if the content length is not an
exact multiple of the record size the call fails with an error (no
partial record is returned), and if it is an exact multiple of `m`
records and every record's name offset resolves in the linked string
table, the call succeeds with exactly `m` decoded records. -/
theorem c6_symbols_whole_records (f : File) (sec : Section)
    (hty : sec.shdr.sh_type = SHT_SYMTAB ∨ sec.shdr.sh_type = SHT_DYNSYM)
    (hlink : sec.shdr.sh_link < f.sections.length) :
    (¬ (recSize f.ehdr ∣ sec.data.length) →
      ∃ e, File.get_symbols f sec = .err e) ∧
    (∀ m, sec.data.length = m * recSize f.ehdr →
      (∀ k, k < m → ∃ nm,
        get_string (f.sections.get ⟨sec.shdr.sh_link, hlink⟩).data
          (symNameOff f.ehdr sec.data k) = .ok nm) →
      ∃ syms, File.get_symbols f sec = .ok syms ∧ syms.length = m) := by
  constructor
  · intro hnm
    obtain ⟨e, he⟩ := symLoopGo_err f.ehdr
      (f.sections.get ⟨sec.shdr.sh_link, hlink⟩).data
      sec.data hnm (sec.data.length + 1) 0
      { data := sec.data, pos := 0, reads := 0, seeks := 0 }
      rfl (by simp) (by simp)
    refine ⟨e, ?_⟩
    unfold File.get_symbols
    rw [if_pos hty, dif_pos hlink, he]
    rfl
  · intro m hm hnames
    have hrec : 0 < recSize f.ehdr :=
      lt_of_lt_of_le (by norm_num) (recSize_ge_16 f.ehdr)
    have hmle : m ≤ sec.data.length := by
      have h1 : m * 1 ≤ m * recSize f.ehdr := Nat.mul_le_mul_left m hrec
      rw [Nat.mul_one] at h1
      omega
    obtain ⟨syms, hloop, hlen⟩ := symLoopGo_ok f.ehdr
      (f.sections.get ⟨sec.shdr.sh_link, hlink⟩).data
      sec.data hm hnames (sec.data.length + 1) 0
      { data := sec.data, pos := 0, reads := 0, seeks := 0 }
      rfl (by simp) (by omega) (by omega)
    refine ⟨syms, ?_, by simpa using hlen⟩
    unfold File.get_symbols
    rw [if_pos hty, dif_pos hlink, hloop]
    rfl

/-- Witness for **C6**: a 17-byte symbol-table content (not a whole
number of 16-byte records) fails, and the one-record content of
`c6secOk`, whose single name offset resolves, decodes to exactly one
symbol. -/
theorem c6_witness :
    (∃ e, File.get_symbols c6file c6secRagged = .err e) ∧
    (∃ syms, File.get_symbols c6fileOk c6secOk = .ok syms ∧
      syms.length = 1) := by
  constructor
  · exact (c6_symbols_whole_records c6file c6secRagged (Or.inl rfl)
      (by decide)).1 (by decide)
  · refine (c6_symbols_whole_records c6fileOk c6secOk (Or.inl rfl)
      (by decide)).2 1 (by decide) ?_
    intro k hk
    have hk0 : k = 0 := by omega
    subst hk0
    exact ⟨[], by rfl⟩

end Elf
